import Mathlib

/-!
# A verification model of the `sax-es6` streaming XML parser

This file gives a shallow embedding, in Lean 4, of the `SAXParser` class of the
`sax-es6` repository (file `SAXParser.ts`, together with `utils/String.ts`,
`data/Constants.ts` and the model interfaces).  JavaScript strings are modelled
by Lean `String` (sequences of characters; the UTF-16 subtleties of JavaScript
are irrelevant to every statement proved below, which only ever exercises
scalar values), the mutable parser object is modelled by the state record
`Sax.PState`, and the event-emitter is modelled by an output trace carried
inside the state.  A `write` call that ends in a JavaScript `throw` is modelled
by returning the thrown message next to the state reached at the throw point.
-/

namespace Sax

/-! ## utils/String.ts -/

/-- From `utils/String.ts`: `isWhitespace`. -/
def isWhitespace (c : Char) : Bool :=
  c = ' ' ∨ c = '\n' ∨ c = '\r' ∨ c = '\t'

/-- From `utils/String.ts`: `isQuote`. -/
def isQuote (c : Char) : Bool :=
  c = '"' ∨ c = '\''

/-- From `utils/String.ts`: `isAttribEnd`. -/
def isAttribEnd (c : Char) : Bool :=
  c = '>' ∨ isWhitespace c

/-- `name.split(':')` on the character list (JavaScript `String.split` with a
one-character separator: fields between colons, empty fields kept). -/
def splitColonAux : List Char → List Char → List String
  | [], acc => [String.mk acc.reverse]
  | c :: rest, acc =>
    if c = ':' then String.mk acc.reverse :: splitColonAux rest []
    else splitColonAux rest (c :: acc)

def jsSplitColon (s : String) : List String :=
  splitColonAux s.toList []

/-- From `utils/String.ts`: `qname`.  Splits a name at `:` the way
`name.split(':')` does, keeping only the first two components; the attribute
literal `xmlns` becomes `(xmlns, '')`. -/
def qnameFn (name : String) (isAttr : Bool) : String × String :=
  let parts := jsSplitColon name
  let qual :=
    match parts with
    | [_] => ("", name)
    | p0 :: p1 :: _ => (p0, p1)
    | [] => ("", name)
  if isAttr ∧ name = "xmlns" then ("xmlns", "") else qual

/-! ## data/Regex.ts (not under `src/`)

Modelled from the spec: `data/Regex.ts` (the `nameStart`, `nameBody`,
`entityStart`, `entityBody` character-class regexes) is not among the provided
sources.  Spec section 4.1 says they "follow the XML 1.0 Name production
(letters, `_`, `:`, digits, `-`, `.`, combining marks, etc.)" and that the
reference implementation is permissive; spec section 4.2 requires numeric
entity names such as `#65` to be bufferable, so the entity classes also admit
`#`.  Non-ASCII code points (≥ U+00C0) are admitted permissively. -/

/-- Modelled from the spec: the `nameStart` character class. -/
def isNameStart (c : Char) : Bool :=
  c.isAlpha ∨ c = '_' ∨ c = ':' ∨ c.toNat ≥ 0xC0

/-- Modelled from the spec: the `nameBody` character class. -/
def isNameBody (c : Char) : Bool :=
  isNameStart c ∨ c.isDigit ∨ c = '-' ∨ c = '.'

/-- Modelled from the spec: the `entityStart` character class. -/
def isEntityStart (c : Char) : Bool :=
  isNameStart c ∨ c = '#'

/-- Modelled from the spec: the `entityBody` character class. -/
def isEntityBody (c : Char) : Bool :=
  isNameBody c ∨ c = '#'

/-! ## data/Constants.ts -/

def CDATA : String := "[CDATA["
def DOCTYPE : String := "DOCTYPE"
def XML_NAMESPACE : String := "http://www.w3.org/XML/1998/namespace"
def XMLNS_NAMESPACE : String := "http://www.w3.org/2000/xmlns/"

/-- The `rootNS` constant, as an association list in property-insertion
order. -/
def rootNS : List (String × String) :=
  [("xml", XML_NAMESPACE), ("xmlns", XMLNS_NAMESPACE)]

def MAX_BUFFER_LENGTH : Nat := 64 * 1024

/-! ## data/Entities.ts (not under `src/`)

Modelled from the spec: `data/Entities.ts` is not among the provided sources.
Spec section 4.2 describes two tables: `XmlEntities`, the five XML predefined
entities, and `Entities`, the full HTML-4 named set (≈ 250 entries) which
extends them.  The claims checked below depend only on the five predefined
entries (and on the absence of names beginning with `#`, which the spec
reserves for the numeric path), so `Entities` is modelled as the predefined
five plus a small sample of the HTML additions. -/

/-- Modelled from the spec: the strict XML predefined entity table. -/
def XmlEntities : List (String × String) :=
  [("amp", "&"), ("gt", ">"), ("lt", "<"), ("quot", "\""),
   ("apos", String.singleton '\'')]

/-- Modelled from the spec: the HTML-4 entity table (sampled; see above). -/
def Entities : List (String × String) :=
  XmlEntities ++ [("nbsp", " "), ("copy", "©"), ("Agrave", "À")]

/-! ## JavaScript primitives used by the parser -/

/-- `assocFind l k` is JavaScript property read `l[k]` on an object modelled as
an insertion-ordered association list. -/
def assocFind (l : List (String × String)) (k : String) : Option String :=
  (l.find? (fun kv => kv.1 = k)).map (·.2)

/-- A truthiness-respecting table lookup: `if (table[k]) ...` in JavaScript
treats the empty string as a miss. -/
def truthyFind (l : List (String × String)) (k : String) : Option String :=
  match assocFind l k with
  | some v => if v = "" then none else some v
  | none => none

/-- JavaScript property write `l[k] = v`: an existing key keeps its position,
a new key is appended (object insertion order). -/
def assocSet (l : List (String × String)) (k v : String) :
    List (String × String) :=
  match l with
  | [] => [(k, v)]
  | (k', v') :: rest =>
    if k' = k then (k, v) :: rest else (k', v') :: assocSet rest k v

/-- Digit value of a character in bases up to 36, as `parseInt` reads it. -/
def jsDigitVal (c : Char) : Option Nat :=
  if c.isDigit then some (c.toNat - '0'.toNat)
  else if 'a' ≤ c ∧ c ≤ 'z' then some (c.toNat - 'a'.toNat + 10)
  else if 'A' ≤ c ∧ c ≤ 'Z' then some (c.toNat - 'A'.toNat + 10)
  else none

/-- Longest-prefix digit parse: reads digits valid in `radix` until the first
invalid character; `none` when no digit is read (`NaN`). -/
def jsDigits (radix : Nat) : List Char → Option Nat → Option Nat
  | [], acc => acc
  | c :: rest, acc =>
    match jsDigitVal c with
    | some d =>
      if d < radix then jsDigits radix rest (some ((acc.getD 0) * radix + d))
      else acc
    | none => acc

/-- JavaScript `parseInt(s, radix)` for radix 10 or 16: skips leading
whitespace, accepts an optional sign, strips an optional `0x`/`0X` prefix when
the radix is 16, then parses the longest valid digit prefix; `none` is `NaN`. -/
def jsParseInt (s : String) (radix : Nat) : Option Int :=
  let cs := s.toList.dropWhile isWhitespace
  let (neg, cs) :=
    match cs with
    | '-' :: rest => (true, rest)
    | '+' :: rest => (false, rest)
    | _ => (false, cs)
  let cs :=
    if radix = 16 then
      match cs with
      | '0' :: 'x' :: rest => rest
      | '0' :: 'X' :: rest => rest
      | _ => cs
    else cs
  match jsDigits radix cs none with
  | some n => some (if neg then -(n : Int) else (n : Int))
  | none => none

/-- Digits of `n` in base `b` (≥ 2), most significant first, lowercase. -/
def natToBaseStr (b : Nat) (n : Nat) : String :=
  let rec go (fuel : Nat) (n : Nat) (acc : List Char) : List Char :=
    match fuel with
    | 0 => acc
    | fuel + 1 =>
      if n = 0 then acc
      else
        let d := n % b
        let c := if d < 10 then Char.ofNat ('0'.toNat + d)
                 else Char.ofNat ('a'.toNat + (d - 10))
        go fuel (n / b) (c :: acc)
  if n = 0 then "0" else String.mk (go n n [])

/-- JavaScript `num.toString(radix)` for an integer value. -/
def jsNumToString (n : Int) (radix : Nat) : String :=
  (if n < 0 then "-" else "") ++ natToBaseStr radix n.natAbs

/-- JavaScript `s.replace(/^0+/, '')`. -/
def stripLeadingZeros (s : String) : String :=
  String.mk (s.toList.dropWhile (· = '0'))

/-- JavaScript `String.fromCodePoint(n)`: throws a `RangeError` outside
`[0, 0x10FFFF]`.  (Lone-surrogate outputs, which JavaScript represents as
unpaired UTF-16 units, are approximated by `Char.ofNat`'s fallback; no
statement below depends on the surrogate range.) -/
def jsFromCodePoint (n : Int) : Except String String :=
  if n < 0 ∨ n > 0x10FFFF then
    Except.error ("Invalid code point " ++ toString n)
  else
    Except.ok (String.singleton (Char.ofNat n.toNat))

/-- JavaScript `JSON.stringify` on a string (escapes limited to the quote and
backslash, which covers every string this parser ever quotes). -/
def jsonQuote (s : String) : String :=
  "\"" ++ String.join (s.toList.map (fun c =>
    if c = '"' then "\\\"" else if c = '\\' then "\\\\"
    else String.singleton c)) ++ "\""

def toLowerStr (s : String) : String :=
  String.mk (s.data.map Char.toLower)

def toUpperStr (s : String) : String :=
  String.mk (s.data.map Char.toUpper)

/-- JavaScript `s.trim()` restricted to the whitespace the parser deals in. -/
def jsTrim (s : String) : String :=
  String.mk (((s.toList.dropWhile isWhitespace).reverse.dropWhile
    isWhitespace).reverse)

/-- JavaScript `s.replace(/\s+/g, ' ')`: a whitespace run becomes one
space (`prevWs` records whether the previous character was whitespace). -/
def collapseWs (s : String) : String :=
  let rec go (prevWs : Bool) : List Char → List Char
    | [] => []
    | c :: rest =>
      if isWhitespace c then
        (if prevWs then [] else [' ']) ++ go true rest
      else c :: go false rest
  String.mk (go false s.toList)

/-! ## models/State.ts -/

/-- The 38-state lexer enumeration of `models/State.ts`. -/
inductive State where
  | Begin | BeginWhitespace | Text | TextEntity | OpenWaka
  | SgmlDecl | SgmlDeclQuoted | DocType | DocTypeQuoted | DocTypeDTD
  | DocTypeDTDQuoted | CommentStarting | Comment | CommentEnding
  | CommentEnded | CData | CDataEnding | CDataEnding2 | ProcInst
  | ProcInstBody | ProcInstEnding | OpenTag | OpenTagSlash | Attrib
  | AttribName | AttribNameSawWhite | AttribValue | AttribValueQuoted
  | AttribValueClosed | AttribValueUnquoted | AttribValueEntityQ
  | AttribValueEntityU | CloseTag | CloseTagSawWhite | Script | ScriptEnding
  deriving DecidableEq, Repr

/-! ## models/IOptions.ts -/

/-- The option record (`models/IOptions.ts`); `xmlns` doubles as the
namespace-support discriminator of the class. -/
structure Options where
  trim : Bool
  normalize : Bool
  lowercase : Bool
  xmlns : Bool
  trackPosition : Bool
  strictEntities : Bool
  noscript : Bool
  deriving DecidableEq, Repr

/-- The constructor defaults of `SAXParser`. -/
def defaultOpts : Options :=
  { trim := false, normalize := false, lowercase := false, xmlns := false,
    trackPosition := false, strictEntities := false, noscript := false }

/-! ## models/IBuffer.ts -/

/-- The `doctype` buffer is a string until the doctype is emitted, after which
the code stores the boolean sentinel `true`. -/
inductive DoctypeBuf where
  | str (s : String)
  | seen
  deriving DecidableEq, Repr

/-- JavaScript `+=` on the doctype slot (`true + c` stringifies the
boolean). -/
def DoctypeBuf.append (d : DoctypeBuf) (s : String) : DoctypeBuf :=
  match d with
  | .str t => .str (t ++ s)
  | .seen => .str ("true" ++ s)

/-- JavaScript truthiness of the doctype slot. -/
def DoctypeBuf.truthy (d : DoctypeBuf) : Bool :=
  match d with
  | .str t => t ≠ ""
  | .seen => true

/-- The buffer set of `models/IBuffer.ts`. -/
structure Buffer where
  comment : String
  sgmlDecl : String
  textNode : String
  tagName : String
  doctype : DoctypeBuf
  procInstName : String
  procInstBody : String
  entity : String
  attribName : String
  attribValue : String
  cdata : String
  script : String
  deriving DecidableEq, Repr

/-- The all-empty buffer set (`_clearBuffers`). -/
def emptyBuffer : Buffer :=
  { comment := "", sgmlDecl := "", textNode := "", tagName := "",
    doctype := .str "", procInstName := "", procInstBody := "", entity := "",
    attribName := "", attribValue := "", cdata := "", script := "" }

/-! ## Tags and namespaces -/

/-- A tag's namespace slot.  `flat` is the full prefix→URI lookup chain
(own bindings shadowing inherited ones), `own` the tag's own bindings in
insertion order (JavaScript `Object.keys`), and `shared` records object
identity with the parent's map (`tag.ns === parentNamespace`), the test the
source uses before copy-on-write. -/
structure NsInfo where
  flat : List (String × String)
  own : List (String × String)
  shared : Bool
  deriving DecidableEq, Repr

/-- An attribute value as stored in `tag.attributes`: a plain string in
non-namespace mode (and in the `AttribNameSawWhite` shortcut), a qualified
record in namespace mode. -/
inductive AttrVal where
  | plain (value : String)
  | qual (name value pfx loc uri : String)
  deriving DecidableEq, Repr

/-- A tag (`models/ITag.ts` / `models/IQualifiedTag.ts` merged; the qualified
fields are `none` for plain tags). -/
structure Tag where
  name : String
  attributes : List (String × AttrVal)
  isSelfClosing : Bool
  pfx : Option String
  loc : Option String
  uri : Option String
  ns : Option NsInfo
  deriving DecidableEq, Repr

/-- Attribute-map membership: JavaScript `hasOwnProperty`. -/
def Tag.hasAttr (t : Tag) (k : String) : Bool :=
  t.attributes.any (fun kv => kv.1 = k)

/-- Attribute-map write `tag.attributes[k] = v` (insertion order kept). -/
def attrSet (l : List (String × AttrVal)) (k : String) (v : AttrVal) :
    List (String × AttrVal) :=
  match l with
  | [] => [(k, v)]
  | (k', v') :: rest =>
    if k' = k then (k, v) :: rest else (k', v') :: attrSet rest k v

/-! ## models/ISAXParserEvents.ts -/

/-- The event vocabulary, with payloads as observed by a listener at emission
time.  `attributePlain` is the two-field payload (non-namespace mode and the
`AttribNameSawWhite` shortcut), `attributeQual` the five-field namespace-mode
payload. -/
inductive Event where
  | error (message : String)
  | text (value : String)
  | doctype (value : String)
  | processinginstruction (name body : String)
  | sgmldeclaration (value : String)
  | opencdata
  | cdata (value : String)
  | closecdata
  | comment (value : String)
  | opentagstart (tag : Tag)
  | attributePlain (name value : String)
  | attributeQual (name value pfx loc uri : String)
  | opennamespace (pfx uri : String)
  | closenamespace (pfx uri : String)
  | opentag (tag : Tag)
  | closetag (name : String)
  | script (value : String)
  | ready
  | end
  deriving DecidableEq, Repr

/-! ## The parser state -/

/-- The mutable state of a `SAXParser` instance, plus the `trace` of events it
has emitted (the event-emitter is modelled as an output log). -/
structure PState where
  line : Nat
  column : Nat
  position : Nat
  startTagPosition : Nat
  closed : Bool
  strict : Bool
  opts : Options
  tag : Option Tag
  error : Option String
  state : State
  attribList : List (String × String)
  tags : List Tag
  currentChar : String
  previousChar : String
  closedRoot : Bool
  sawRoot : Bool
  bufferCheckPosition : Int
  buffer : Buffer
  trace : List Event
  deriving DecidableEq, Repr

/-- A freshly constructed parser. -/
def initP (strict : Bool) (opts : Options) : PState :=
  { line := 0, column := 0, position := 0, startTagPosition := 0,
    closed := false, strict := strict, opts := opts, tag := none,
    error := none, state := .Begin, attribList := [], tags := [],
    currentChar := "", previousChar := "", closedRoot := false,
    sawRoot := false, bufferCheckPosition := (MAX_BUFFER_LENGTH : Int),
    buffer := emptyBuffer, trace := [] }

/-- The entity table chosen at construction (`strictEntities`). -/
def entitiesFor (opts : Options) : List (String × String) :=
  if opts.strictEntities then XmlEntities else Entities

/-- Event emission. -/
def emitE (p : PState) (e : Event) : PState :=
  { p with trace := p.trace ++ [e] }

/-! ## Private helpers of `SAXParser` -/

/-- `_textopts`. -/
def textopts (opts : Options) (text : String) : String :=
  let text := if opts.trim then jsTrim text else text
  if opts.normalize then collapseWs text else text

/-- `_closeText`. -/
def closeTextFn (p : PState) : PState :=
  let t := textopts p.opts p.buffer.textNode
  let p := if t ≠ "" then emitE p (.text t) else p
  { p with buffer := { p.buffer with textNode := "" } }

/-- The recurring guard `if (this._buffer.textNode) this._closeText()`. -/
def flushText (p : PState) : PState :=
  if p.buffer.textNode ≠ "" then closeTextFn p else p

/-- `_emitError`: flushes text, annotates the message when positions are
tracked, latches the error and emits the `error` event. -/
def emitErrorFn (p : PState) (message : String) : PState :=
  let p := closeTextFn p
  let message :=
    if p.opts.trackPosition then
      message ++ "\nLine: " ++ toString p.line ++ "\nColumn: " ++
        toString p.column ++ "\nChar: " ++ p.currentChar
    else message
  emitE { p with error := some message } (.error message)

/-- `_strictFail`. -/
def strictFailFn (p : PState) (message : String) : PState :=
  if p.strict then emitErrorFn p message else p

/-- `_updatePosition`. -/
def updatePositionF (p : PState) (c : Char) : PState :=
  if p.opts.trackPosition then
    if c = '\n' then
      { p with position := p.position + 1, line := p.line + 1, column := 0 }
    else
      { p with position := p.position + 1, column := p.column + 1 }
  else p

/-- `_getParentNamespace`, as the lookup chain of the returned map. -/
def parentNsFlat (p : PState) : List (String × String) :=
  match p.tags with
  | parent :: _ => if p.opts.xmlns then (parent.ns.map (·.flat)).getD [] else []
  | [] => rootNS

/-- `_newTag`. -/
def newTagFn (p : PState) : PState :=
  let tagName :=
    if ¬p.strict then
      if p.opts.lowercase then toLowerStr p.buffer.tagName
      else toUpperStr p.buffer.tagName
    else p.buffer.tagName
  let p := { p with buffer := { p.buffer with tagName := tagName } }
  let tag : Tag :=
    { name := tagName, attributes := [], isSelfClosing := false,
      pfx := none, loc := none, uri := none,
      ns := if p.opts.xmlns then
              -- `tag.ns = parentNamespace` (object identity with the
              -- parent's map, hence `shared`)
              some { flat := parentNsFlat p, own := parentNsFlat p,
                     shared := true }
            else none }
  let p := { p with tag := some tag, attribList := [] }
  let p := flushText p
  emitE p (.opentagstart tag)

/-- `_containsAttrb`. -/
def containsAttrb (l : List (String × String)) (name : String) : Bool :=
  l.any (fun kv => kv.1 = name)

/-- `_parseEntity`: returns the replacement text, or the thrown `RangeError`
message for an out-of-range `String.fromCodePoint`. -/
def parseEntityFn (p : PState) : PState × Except String String :=
  let tbl := entitiesFor p.opts
  let entRaw := p.buffer.entity
  let entLC := toLowerStr entRaw
  match truthyFind tbl entRaw with
  | some v => (p, .ok v)
  | none =>
  match truthyFind tbl entLC with
  | some v => (p, .ok v)
  | none =>
    -- `entity = entityLC` then the numeric paths
    let (num, numStr, ent) :=
      if entLC.toList.head? = some '#' then
        if (entLC.toList.drop 1).head? = some 'x' then
          let digits := String.mk (entLC.toList.drop 2)
          let n := jsParseInt digits 16
          (n, (n.map (jsNumToString · 16)).getD "", digits)
        else
          let digits := String.mk (entLC.toList.drop 1)
          let n := jsParseInt digits 10
          (n, (n.map (jsNumToString · 10)).getD "", digits)
      else (none, "", entLC)
    let ent := stripLeadingZeros ent
    match num with
    | none =>
      (strictFailFn p "Invalid character entity",
       .ok ("&" ++ entRaw ++ ";"))
    | some n =>
      if toLowerStr numStr ≠ ent then
        (strictFailFn p "Invalid character entity",
         .ok ("&" ++ entRaw ++ ";"))
      else
        (p, jsFromCodePoint n)

/-- `_attrib`. -/
def attribFn (p : PState) : PState :=
  let attribName :=
    if ¬p.strict then
      if p.opts.lowercase then toLowerStr p.buffer.attribName
      else toUpperStr p.buffer.attribName
    else p.buffer.attribName
  let p := { p with buffer := { p.buffer with attribName := attribName } }
  match p.tag with
  | none => emitErrorFn p "Tag is undefined"
  | some tag =>
    if containsAttrb p.attribList attribName ∨ tag.hasAttr attribName then
      { p with buffer := { p.buffer with attribName := "", attribValue := "" } }
    else
      let p :=
        if p.opts.xmlns then
          let qn := qnameFn attribName true
          let p :=
            if qn.1 = "xmlns" then
              if qn.2 = "xml" ∧ p.buffer.attribValue ≠ XML_NAMESPACE then
                strictFailFn p
                  ("xml: prefix must be bound to " ++ XML_NAMESPACE ++
                   "\nActual: " ++ p.buffer.attribValue)
              else if qn.2 = "xmlns" ∧ p.buffer.attribValue ≠ XMLNS_NAMESPACE
                  then
                strictFailFn p
                  ("xmlns: prefix must be bound to " ++ XMLNS_NAMESPACE ++
                   "\nActual: " ++ p.buffer.attribValue)
              else
                match p.tag with
                | some tag =>
                  match tag.ns with
                  | some nsi =>
                    let nsi :=
                      if nsi.shared then
                        -- copy-on-write: `tag.ns = Object.create(parent)`
                        { flat := assocSet (parentNsFlat p) qn.2
                            p.buffer.attribValue,
                          own := [(qn.2, p.buffer.attribValue)],
                          shared := false }
                      else
                        { flat := assocSet nsi.flat qn.2 p.buffer.attribValue,
                          own := assocSet nsi.own qn.2 p.buffer.attribValue,
                          shared := false }
                    { p with tag := some { tag with ns := some nsi } }
                  | none => p
                | none => p
            else p
          -- defer the attribute event: push onto the staging list
          { p with attribList :=
              p.attribList ++ [(attribName, p.buffer.attribValue)] }
        else
          -- non-xmlns mode: store and emit immediately
          let attrs :=
            attrSet tag.attributes attribName (.plain p.buffer.attribValue)
          let p := { p with tag := some { tag with attributes := attrs } }
          let p := flushText p
          emitE p (.attributePlain attribName p.buffer.attribValue)
      { p with buffer := { p.buffer with attribName := "", attribValue := "" } }

/-- One `opennamespace` emission inside `_openTag`'s binding loop. -/
def nsEmitOpen (p : PState) (kv : String × String) : PState :=
  emitE (flushText p) (.opennamespace kv.1 kv.2)

/-- One `closenamespace` emission inside `_closeTag`'s binding loop. -/
def nsEmitClose (p : PState) (kv : String × String) : PState :=
  emitE (flushText p) (.closenamespace kv.1 kv.2)

/-- One iteration of `_openTag`'s deferred-attribute loop: qualify the staged
attribute, resolve its URI in the tag's namespace map, store and emit it. -/
def attribCommitStep (acc : PState × Tag) (nv : String × String) :
    PState × Tag :=
  let (p, tag) := acc
  let qa := qnameFn nv.1 true
  let uriA :=
    if qa.1 = "" then ""
    else ((tag.ns.map (fun nsi => assocFind nsi.flat qa.1)).join).getD ""
  let (p, uriA) :=
    if qa.1 ≠ "" ∧ qa.1 ≠ "xmlns" ∧ uriA = "" then
      (strictFailFn p ("Unbound namespace prefix: " ++ jsonQuote qa.1), qa.1)
    else (p, uriA)
  let attrs := attrSet tag.attributes nv.1 (.qual nv.1 nv.2 qa.1 qa.2 uriA)
  let tag := { tag with attributes := attrs }
  let p := flushText p
  (emitE p (.attributeQual nv.1 nv.2 qa.1 qa.2 uriA), tag)

/-- The namespace-mode part of `_openTag`: qualify the tag, emit
`opennamespace` for its own bindings, resolve and emit staged attributes. -/
def openTagNsFn (p : PState) (tag : Tag) : PState × Tag :=
  let qn := qnameFn p.buffer.tagName false
  let uri0 := ((tag.ns.map (fun nsi => assocFind nsi.flat qn.1)).join).getD ""
  let (p, uri1) :=
    if qn.1 ≠ "" ∧ uri0 = "" then
      (strictFailFn p
        ("Unbound namespace prefix: " ++ jsonQuote p.buffer.tagName), qn.1)
    else (p, uri0)
  let tag := { tag with pfx := some qn.1, loc := some qn.2, uri := some uri1 }
  -- `if (tag.ns && parentNamespace !== tag.ns)`: emit opennamespace for the
  -- map's own keys
  let p :=
    match tag.ns with
    | some nsi =>
      if ¬nsi.shared then nsi.own.foldl nsEmitOpen p else p
    | none => p
  -- deferred attribute events
  let (p, tag) := p.attribList.foldl attribCommitStep (p, tag)
  ({ p with attribList := [] }, tag)

/-- `_openTag`. -/
def openTagFn (p : PState) (selfClosing : Bool) : PState :=
  match p.tag with
  | none => emitErrorFn p "Tag is undefined"
  | some tag =>
    let r := if p.opts.xmlns then openTagNsFn p tag else (p, tag)
    let p := r.1
    let tag := r.2
    let tag := { tag with isSelfClosing := selfClosing }
    let p := { p with tag := some tag, sawRoot := true, tags := tag :: p.tags }
    let p := flushText p
    let p := emitE p (.opentag tag)
    let p :=
      if ¬selfClosing then
        let p :=
          if ¬(p.strict ∨ p.opts.noscript) ∧
              toLowerStr p.buffer.tagName = "script" then
            { p with state := .Script }
          else
            { p with state := .Text }
        { p with tag := none, buffer := { p.buffer with tagName := "" } }
      else p
    { p with buffer := { p.buffer with attribName := "", attribValue := "" },
             attribList := [] }

/-- The stack walk of `_closeTag` (`while (t--) ...`): every mismatching tag
above the match strict-fails "Unexpected close tag"; returns the match depth
from the top, if any. -/
def closeWalk (p : PState) (stack : List Tag) (closeTo : String) :
    PState × Option Nat :=
  match stack with
  | [] => (p, none)
  | t :: rest =>
    if t.name = closeTo then (p, some 0)
    else
      let p := strictFailFn p "Unexpected close tag"
      match closeWalk p rest closeTo with
      | (p, some j) => (p, some (j + 1))
      | (p, none) => (p, none)

/-- The pop loop of `_closeTag` (`while (s-- > t)`). -/
def popTags (p : PState) (k : Nat) : PState :=
  match k with
  | 0 => p
  | k + 1 =>
    match p.tags with
    | [] => p
    | tag :: rest =>
      let buf := { p.buffer with tagName := tag.name }
      let p := { p with tag := some tag, tags := rest, buffer := buf }
      let p := flushText p
      let p := emitE p (.closetag tag.name)
      let p :=
        if p.opts.xmlns then
          match tag.ns with
          | some nsi =>
            -- `tag.ns !== parentNamespace`: the tag owns its map
            if ¬nsi.shared then nsi.own.foldl nsEmitClose p else p
          | none => p
        else p
      popTags p k

/-- The script-buffer flush at the top of `_closeTag`'s normal path. -/
def closeTagScriptFlush (p : PState) : PState :=
  if p.buffer.script ≠ "" then
    let p := flushText p
    let p := emitE p (.script p.buffer.script)
    { p with buffer := { p.buffer with script := "" } }
  else p

/-- The case-normalised closing name (`closeTo` in `_closeTag`). -/
def closeToName (p : PState) : String :=
  if ¬p.strict then
    if p.opts.lowercase then toLowerStr p.buffer.tagName
    else toUpperStr p.buffer.tagName
  else p.buffer.tagName

/-- `_closeTag`. -/
def closeTagFn (p : PState) : PState :=
  if p.buffer.tagName = "" then
    let p := strictFailFn p "Weird empty close tag."
    { p with buffer := { p.buffer with textNode :=
        p.buffer.textNode ++ "</>" }, state := .Text }
  else if p.buffer.script ≠ "" ∧ p.buffer.tagName ≠ "script" then
    let script := p.buffer.script ++ "</" ++ p.buffer.tagName ++ ">"
    let buf := { p.buffer with script := script, tagName := "" }
    { p with buffer := buf, state := .Script }
  else
    let p := closeTagScriptFlush p
    let closeTo := closeToName p
    match closeWalk p p.tags closeTo with
    | (p, none) =>
      -- didn't find it: strict-fail, stash the raw name as text, abort
      let p := strictFailFn p
        ("Unmatched closing tag: " ++ p.buffer.tagName)
      let textNode := p.buffer.textNode ++ "</" ++ p.buffer.tagName ++ ">"
      let buf := { p.buffer with textNode := textNode }
      { p with buffer := buf, state := .Text }
    | (p, some j) =>
      let p := { p with buffer := { p.buffer with tagName := closeTo } }
      let p := popTags p (j + 1)
      let p := if p.tags = [] then { p with closedRoot := true } else p
      let buf :=
        { p.buffer with tagName := "", attribValue := "", attribName := "" }
      { p with buffer := buf, attribList := [], state := .Text }

/-- `_checkSingleBuffer` for one buffer kind: flush the flushable three,
error on the rest; returns the (pre-flush) length. -/
def checkTextNodeBuf (p : PState) (maxAllowed : Nat) : PState × Nat :=
  let len := p.buffer.textNode.length
  (if len > maxAllowed then closeTextFn p else p, len)

def checkCdataBuf (p : PState) (maxAllowed : Nat) : PState × Nat :=
  let len := p.buffer.cdata.length
  if len > maxAllowed then
    let p := flushText p
    let p := emitE p (.cdata p.buffer.cdata)
    ({ p with buffer := { p.buffer with cdata := "" } }, len)
  else (p, len)

def checkScriptBuf (p : PState) (maxAllowed : Nat) : PState × Nat :=
  let len := p.buffer.script.length
  if len > maxAllowed then
    let p := flushText p
    let p := emitE p (.script p.buffer.script)
    ({ p with buffer := { p.buffer with script := "" } }, len)
  else (p, len)

def checkFatalBuf (p : PState) (content : String) (maxAllowed : Nat) :
    PState × Nat :=
  let len := content.length
  if len > maxAllowed then
    (emitErrorFn p ("Max buffer length exceeded: " ++ content), len)
  else (p, len)

/-- `_checkBufferLength`: check the twelve buffers in source order and
schedule the next check at the earliest possible overrun. -/
def checkBufferLengthFn (p : PState) : PState :=
  let maxAllowed := max MAX_BUFFER_LENGTH 10
  let step := fun (acc : PState × Nat) (f : PState → PState × Nat) =>
    let (p, len) := f acc.1
    (p, max acc.2 len)
  let acc := ((p, 0) : PState × Nat)
  let acc := step acc (fun p => checkFatalBuf p p.buffer.comment maxAllowed)
  let acc := step acc (fun p => checkFatalBuf p p.buffer.sgmlDecl maxAllowed)
  let acc := step acc (fun p => checkTextNodeBuf p maxAllowed)
  let acc := step acc (fun p => checkFatalBuf p p.buffer.tagName maxAllowed)
  let acc := step acc (fun p =>
    match p.buffer.doctype with
    | .str s => checkFatalBuf p s maxAllowed
    | .seen => (p, 0))
  let acc := step acc (fun p =>
    checkFatalBuf p p.buffer.procInstName maxAllowed)
  let acc := step acc (fun p =>
    checkFatalBuf p p.buffer.procInstBody maxAllowed)
  let acc := step acc (fun p => checkFatalBuf p p.buffer.entity maxAllowed)
  let acc := step acc (fun p => checkFatalBuf p p.buffer.attribName maxAllowed)
  let acc := step acc (fun p =>
    checkFatalBuf p p.buffer.attribValue maxAllowed)
  let acc := step acc (fun p => checkCdataBuf p maxAllowed)
  let acc := step acc (fun p => checkScriptBuf p maxAllowed)
  let (p, maxActual) := acc
  { p with bufferCheckPosition :=
      ((MAX_BUFFER_LENGTH : Int) - (maxActual : Int)) + (p.position : Int) }

/-- `end()`: finish the document, emit `end`, and reset every transient field
for reuse.  The trace is observation-only and is kept. -/
def endFn (p : PState) : PState :=
  let p :=
    if p.sawRoot ∧ ¬p.closedRoot then strictFailFn p "Unclosed root tag" else p
  let p :=
    if p.state ≠ .Begin ∧ p.state ≠ .BeginWhitespace ∧ p.state ≠ .Text then
      emitErrorFn p "Unexpected end"
    else p
  let p := closeTextFn p
  let p := { p with currentChar := "", closed := true }
  let p := emitE p .end
  { p with
    buffer := emptyBuffer, currentChar := "", previousChar := "",
    bufferCheckPosition := (MAX_BUFFER_LENGTH : Int), closedRoot := false,
    sawRoot := false, error := none, state := .Begin, attribList := [],
    tags := [], line := 0, column := 0, position := 0, startTagPosition := 0,
    closed := false, tag := none }

/-! ## The per-character dispatch of `write` -/

/-- Buffer-modifying convenience. -/
def bmod (p : PState) (f : Buffer → Buffer) : PState :=
  { p with buffer := f p.buffer }

/-- `_beginWhiteSpace`. -/
def beginWhiteSpaceFn (p : PState) (c : Char) : PState :=
  if c = '<' then
    { p with state := .OpenWaka, startTagPosition := p.position }
  else if ¬isWhitespace c then
    let p := strictFailFn p "Non-whitespace before first tag."
    { bmod p (fun b => { b with textNode := String.singleton c }) with
      state := .Text }
  else p

/-- One iteration of the `switch` in `write`, for a single character (the
current character and position have already been recorded).  The returned
`Option String` is a JavaScript `throw` escaping `write`.  The bulk text scan
of the `Text` case is in `fastScan` below; this function gives the one
character semantics, to which the scan is proved equivalent. -/
def dispatchOne (p : PState) (c : Char) : PState × Option String :=
  let sc := String.singleton c
  match p.state with
  | .Begin =>
    -- the skipped leading byte-order mark is U+FEFF
    let p := { p with state := .BeginWhitespace }
    if c.toNat = 0xFEFF then (p, none) else (beginWhiteSpaceFn p c, none)
  | .BeginWhitespace => (beginWhiteSpaceFn p c, none)
  | .Text =>
    if c = '<' ∧ ¬(p.sawRoot ∧ p.closedRoot ∧ ¬p.strict) then
      ({ p with state := .OpenWaka, startTagPosition := p.position }, none)
    else
      let p :=
        if ¬isWhitespace c ∧ (¬p.sawRoot ∨ p.closedRoot) then
          strictFailFn p "Text data outside of root node."
        else p
      if c = '&' then ({ p with state := .TextEntity }, none)
      else (bmod p (fun b => { b with textNode := b.textNode ++ sc }), none)
  | .Script =>
    if c = '<' then ({ p with state := .ScriptEnding }, none)
    else (bmod p (fun b => { b with script := b.script ++ sc }), none)
  | .ScriptEnding =>
    if c = '/' then ({ p with state := .CloseTag }, none)
    else
      ({ bmod p (fun b => { b with script := b.script ++ "<" ++ sc }) with
          state := .Script }, none)
  | .OpenWaka =>
    if c = '!' then
      ({ bmod p (fun b => { b with sgmlDecl := "" }) with
          state := .SgmlDecl }, none)
    else if isWhitespace c then (p, none)
    else if isNameStart c then
      ({ bmod p (fun b => { b with tagName := sc }) with
          state := .OpenTag }, none)
    else if c = '/' then
      ({ bmod p (fun b => { b with tagName := "" }) with
          state := .CloseTag }, none)
    else if c = '?' then
      ({ bmod p (fun b => { b with procInstName := "", procInstBody := "" })
          with state := .ProcInst }, none)
    else
      let p := strictFailFn p "Unencoded <"
      -- `new Array(pad).join(' ')` yields pad − 1 spaces
      let padded :=
        if p.startTagPosition + 1 < p.position then
          String.mk (List.replicate (p.position - p.startTagPosition - 1) ' ')
            ++ sc
        else sc
      ({ bmod p (fun b => { b with textNode := b.textNode ++ "<" ++ padded })
          with state := .Text }, none)
  | .SgmlDecl =>
    let acc := p.buffer.sgmlDecl ++ sc
    if toUpperStr acc = CDATA then
      let p := emitE (flushText p) .opencdata
      ({ bmod p (fun b => { b with sgmlDecl := "", cdata := "" }) with
          state := .CData }, none)
    else if acc = "--" then
      ({ bmod p (fun b => { b with comment := "", sgmlDecl := "" }) with
          state := .Comment }, none)
    else if toUpperStr acc = DOCTYPE then
      let p := { p with state := .DocType }
      let p :=
        if p.buffer.doctype.truthy ∨ p.sawRoot then
          strictFailFn p "Inappropriately located doctype declaration"
        else p
      (bmod p (fun b => { b with doctype := .str "", sgmlDecl := "" }), none)
    else if c = '>' then
      let p := flushText p
      let p := emitE p (.sgmldeclaration p.buffer.sgmlDecl)
      ({ bmod p (fun b => { b with sgmlDecl := "" }) with
          state := .Text }, none)
    else if isQuote c then
      ({ bmod p (fun b => { b with sgmlDecl := b.sgmlDecl ++ sc }) with
          state := .SgmlDeclQuoted }, none)
    else (bmod p (fun b => { b with sgmlDecl := b.sgmlDecl ++ sc }), none)
  | .SgmlDeclQuoted =>
    let p :=
      if sc = p.previousChar then
        { p with state := .SgmlDecl, previousChar := "" }
      else p
    (bmod p (fun b => { b with sgmlDecl := b.sgmlDecl ++ sc }), none)
  | .DocType =>
    if c = '>' then
      let p := { p with state := .Text }
      let p := flushText p
      let txt := match p.buffer.doctype with | .str s => s | .seen => "true"
      let p := emitE p (.doctype txt)
      (bmod p (fun b => { b with doctype := .seen }), none)
    else
      let p := bmod p (fun b => { b with doctype := b.doctype.append sc })
      if c = '[' then ({ p with state := .DocTypeDTD }, none)
      else if isQuote c then
        ({ p with state := .DocTypeQuoted, previousChar := sc }, none)
      else (p, none)
  | .DocTypeQuoted =>
    let p := bmod p (fun b => { b with doctype := b.doctype.append sc })
    if sc = p.previousChar then
      ({ p with previousChar := "", state := .DocType }, none)
    else (p, none)
  | .DocTypeDTD =>
    let p := bmod p (fun b => { b with doctype := b.doctype.append sc })
    if c = ']' then ({ p with state := .DocType }, none)
    else if isQuote c then
      ({ p with state := .DocTypeDTDQuoted, previousChar := sc }, none)
    else (p, none)
  | .DocTypeDTDQuoted =>
    let p := bmod p (fun b => { b with doctype := b.doctype.append sc })
    if sc = p.previousChar then
      ({ p with state := .DocTypeDTD, previousChar := "" }, none)
    else (p, none)
  | .Comment =>
    if c = '-' then ({ p with state := .CommentEnding }, none)
    else (bmod p (fun b => { b with comment := b.comment ++ sc }), none)
  | .CommentEnding =>
    if c = '-' then
      let p := { p with state := .CommentEnded }
      let p := bmod p (fun b =>
        { b with comment := textopts p.opts b.comment })
      let p :=
        if p.buffer.comment ≠ "" then
          emitE (flushText p) (.comment p.buffer.comment)
        else p
      (bmod p (fun b => { b with comment := "" }), none)
    else
      ({ bmod p (fun b => { b with comment := b.comment ++ "-" ++ sc }) with
          state := .Comment }, none)
  | .CommentEnded =>
    if c ≠ '>' then
      let p := strictFailFn p "Malformed comment"
      ({ bmod p (fun b => { b with comment := b.comment ++ "--" ++ sc }) with
          state := .Comment }, none)
    else ({ p with state := .Text }, none)
  | .CData =>
    if c = ']' then ({ p with state := .CDataEnding }, none)
    else (bmod p (fun b => { b with cdata := b.cdata ++ sc }), none)
  | .CDataEnding =>
    if c = ']' then ({ p with state := .CDataEnding2 }, none)
    else
      ({ bmod p (fun b => { b with cdata := b.cdata ++ "]" ++ sc }) with
          state := .CData }, none)
  | .CDataEnding2 =>
    if c = '>' then
      let p :=
        if p.buffer.cdata ≠ "" then
          emitE (flushText p) (.cdata p.buffer.cdata)
        else p
      let p := emitE (flushText p) .closecdata
      ({ bmod p (fun b => { b with cdata := "" }) with state := .Text }, none)
    else if c = ']' then
      (bmod p (fun b => { b with cdata := b.cdata ++ "]" }), none)
    else
      ({ bmod p (fun b => { b with cdata := b.cdata ++ "]]" ++ sc }) with
          state := .CData }, none)
  | .ProcInst =>
    if c = '?' then ({ p with state := .ProcInstEnding }, none)
    else if isWhitespace c then ({ p with state := .ProcInstBody }, none)
    else
      (bmod p (fun b => { b with procInstName := b.procInstName ++ sc }), none)
  | .ProcInstBody =>
    if p.buffer.procInstBody = "" ∧ isWhitespace c then (p, none)
    else if c = '?' then ({ p with state := .ProcInstEnding }, none)
    else
      (bmod p (fun b => { b with procInstBody := b.procInstBody ++ sc }), none)
  | .ProcInstEnding =>
    if c = '>' then
      let p := flushText p
      let p := emitE p
        (.processinginstruction p.buffer.procInstName p.buffer.procInstBody)
      ({ bmod p (fun b => { b with procInstName := "", procInstBody := "" })
          with state := .Text }, none)
    else
      ({ bmod p (fun b =>
          { b with procInstBody := b.procInstBody ++ "?" ++ sc }) with
          state := .ProcInstBody }, none)
  | .OpenTag =>
    if isNameBody c then
      (bmod p (fun b => { b with tagName := b.tagName ++ sc }), none)
    else
      let p := newTagFn p
      if c = '>' then (openTagFn p false, none)
      else if c = '/' then ({ p with state := .OpenTagSlash }, none)
      else
        let p :=
          if ¬isWhitespace c then
            strictFailFn p "Invalid character in tag name"
          else p
        ({ p with state := .Attrib }, none)
  | .OpenTagSlash =>
    if c = '>' then
      let p := openTagFn p true
      (closeTagFn p, none)
    else
      let p := strictFailFn p "Forward-slash in opening tag not followed by >"
      ({ p with state := .Attrib }, none)
  | .Attrib =>
    if isWhitespace c then (p, none)
    else if c = '>' then (openTagFn p false, none)
    else if c = '/' then ({ p with state := .OpenTagSlash }, none)
    else if isNameStart c then
      ({ bmod p (fun b => { b with attribName := sc, attribValue := "" }) with
          state := .AttribName }, none)
    else (strictFailFn p "Invalid attribute name", none)
  | .AttribName =>
    if c = '=' then ({ p with state := .AttribValue }, none)
    else if c = '>' then
      let p := strictFailFn p "Attribute without value"
      let p := bmod p (fun b => { b with attribValue := b.attribName })
      let p := attribFn p
      (openTagFn p false, none)
    else if isWhitespace c then ({ p with state := .AttribNameSawWhite }, none)
    else if isNameBody c then
      (bmod p (fun b => { b with attribName := b.attribName ++ sc }), none)
    else (strictFailFn p "Invalid attribute name", none)
  | .AttribNameSawWhite =>
    if c = '=' then ({ p with state := .AttribValue }, none)
    else if isWhitespace c then (p, none)
    else
      let p := strictFailFn p "Attribute without value"
      match p.tag with
      | none => (p, some "Unexpected error where tag is undefined")
      | some tag =>
        let attrs := attrSet tag.attributes p.buffer.attribName (.plain "")
        let p := { p with tag := some { tag with attributes := attrs } }
        let p := bmod p (fun b => { b with attribValue := "" })
        let p := flushText p
        let p := emitE p (.attributePlain p.buffer.attribName "")
        let p := bmod p (fun b => { b with attribName := "" })
        if c = '>' then (openTagFn p false, none)
        else if isNameStart c then
          ({ bmod p (fun b => { b with attribName := sc }) with
              state := .AttribName }, none)
        else
          let p := strictFailFn p "Invalid attribute name"
          ({ p with state := .Attrib }, none)
  | .AttribValue =>
    if isWhitespace c then (p, none)
    else if isQuote c then
      ({ p with previousChar := sc, state := .AttribValueQuoted }, none)
    else
      let p := strictFailFn p "Unquoted attribute value"
      ({ bmod p (fun b => { b with attribValue := sc }) with
          state := .AttribValueUnquoted }, none)
  | .AttribValueQuoted =>
    if sc ≠ p.previousChar then
      if c = '&' then ({ p with state := .AttribValueEntityQ }, none)
      else
        (bmod p (fun b => { b with attribValue := b.attribValue ++ sc }), none)
    else
      let p := attribFn p
      ({ p with previousChar := "", state := .AttribValueClosed }, none)
  | .AttribValueClosed =>
    if isWhitespace c then ({ p with state := .Attrib }, none)
    else if c = '>' then (openTagFn p false, none)
    else if c = '/' then ({ p with state := .OpenTagSlash }, none)
    else if isNameStart c then
      let p := strictFailFn p "No whitespace between attributes"
      ({ bmod p (fun b => { b with attribName := sc, attribValue := "" }) with
          state := .AttribName }, none)
    else (strictFailFn p "Invalid attribute name", none)
  | .AttribValueUnquoted =>
    if ¬isAttribEnd c then
      if c = '&' then ({ p with state := .AttribValueEntityU }, none)
      else
        (bmod p (fun b => { b with attribValue := b.attribValue ++ sc }), none)
    else
      let p := attribFn p
      if c = '>' then (openTagFn p false, none)
      else ({ p with state := .Attrib }, none)
  | .CloseTag =>
    if p.buffer.tagName = "" then
      if isWhitespace c then (p, none)
      else if ¬isNameStart c then
        if p.buffer.script ≠ "" then
          ({ bmod p (fun b => { b with script := b.script ++ "</" ++ sc })
              with state := .Script }, none)
        else (strictFailFn p "Invalid tagname in closing tag.", none)
      else (bmod p (fun b => { b with tagName := sc }), none)
    else if c = '>' then (closeTagFn p, none)
    else if isNameBody c then
      (bmod p (fun b => { b with tagName := b.tagName ++ sc }), none)
    else if p.buffer.script ≠ "" then
      ({ bmod p (fun b =>
          { b with script := b.script ++ "</" ++ b.tagName, tagName := "" })
          with state := .Script }, none)
    else
      let p :=
        if ¬isWhitespace c then
          strictFailFn p "Invalid tagname in closing tag"
        else p
      ({ p with state := .CloseTagSawWhite }, none)
  | .CloseTagSawWhite =>
    if isWhitespace c then (p, none)
    else if c = '>' then (closeTagFn p, none)
    else (strictFailFn p "Invalid characters in closing tag", none)
  | .TextEntity => entityStep p c .Text true
  | .AttribValueEntityQ => entityStep p c .AttribValueQuoted false
  | .AttribValueEntityU => entityStep p c .AttribValueUnquoted false
  | .CommentStarting =>
    -- `State.CommentStarting` has no `case` in the `switch`; the `default`
    -- branch throws (its numeric enum value is 11)
    (p, some "Unknown state: 11")
where
  /-- The shared `TextEntity` / `AttribValueEntityQ` / `AttribValueEntityU`
  body: `toText` selects the target buffer. -/
  entityStep (p : PState) (c : Char) (returnState : State) (toText : Bool) :
      PState × Option String :=
    let sc := String.singleton c
    let put := fun (p : PState) (s : String) =>
      if toText then bmod p (fun b => { b with textNode := b.textNode ++ s })
      else bmod p (fun b => { b with attribValue := b.attribValue ++ s })
    if c = ';' then
      let r := parseEntityFn p
      match r.2 with
      | .error e => (r.1, some e)
      | .ok s =>
        let p := put r.1 s
        ({ bmod p (fun b => { b with entity := "" }) with
            state := returnState }, none)
    else if (if p.buffer.entity ≠ "" then isEntityBody c
             else isEntityStart c) then
      (bmod p (fun b => { b with entity := b.entity ++ sc }), none)
    else
      let p := strictFailFn p "Invalid character in entity name"
      let p := put p ("&" ++ p.buffer.entity ++ sc)
      ({ bmod p (fun b => { b with entity := "" }) with
          state := returnState }, none)

/-- Recording the character and position before dispatch (the top of the
`while` loop in `write`). -/
def preStep (p : PState) (c : Char) : PState :=
  updatePositionF { p with currentChar := String.singleton c } c

/-- One full outer-loop iteration for a single character. -/
def stepOne (p : PState) (c : Char) : PState × Option String :=
  dispatchOne (preStep p c) c

/-- The bulk text scan inside the `Text` case of `write`: starting from the
already-recorded character `c`, consume the maximal run of characters that are
neither `<` nor `&` into `textNode` (the source appends the run as one
`substring`; appending per character yields the same string), updating the
position for every consumed character, then handle the terminator.  Returns
the still-unconsumed suffix. -/
def fastScan (p : PState) (c : Char) (rest : List Char) :
    PState × List Char :=
  if c = '<' then
    ({ p with state := .OpenWaka, startTagPosition := p.position }, rest)
  else if c = '&' then
    ({ p with state := .TextEntity }, rest)
  else
    let p := bmod p (fun b =>
      { b with textNode := b.textNode ++ String.singleton c })
    match rest with
    | [] => (p, [])
    | r :: rest' => fastScan (updatePositionF p r) r rest'

/-- Unconsumed-suffix bound for `fastScan`, used for termination below. -/
theorem fastScan_suffix_le (c : Char) (rest : List Char) (p : PState) :
    (fastScan p c rest).2.length ≤ rest.length := by
  induction rest generalizing p c with
  | nil =>
    unfold fastScan
    split
    · simp
    · split <;> simp
  | cons r rest ih =>
    unfold fastScan
    split
    · simp
    · split
      · simp
      · simpa using Nat.le_trans (ih _ _) (Nat.le_succ _)

/-- The character loop of `write`, with fuel (one unit per outer iteration;
`cs.length` always suffices since every iteration consumes at least one
character). -/
def runChunkAux (fuel : Nat) (p : PState) (cs : List Char) :
    PState × Option String :=
  match cs, fuel with
  | [], _ => ({ p with currentChar := "" }, none)
  | _ :: _, 0 => (p, none)
  | c :: rest, fuel + 1 =>
    let p1 := preStep p c
    if p1.state = .Text ∧ p1.sawRoot ∧ ¬p1.closedRoot then
      let (p2, rest') := fastScan p1 c rest
      runChunkAux fuel p2 rest'
    else
      match dispatchOne p1 c with
      | (p2, none) => runChunkAux fuel p2 rest
      | (p2, some e) => (p2, some e)

/-- The character loop of `write`. -/
def runChunk (p : PState) (cs : List Char) : PState × Option String :=
  runChunkAux cs.length p cs

/-- The per-character reference loop: `stepOne` folded over the characters.
Proved equal to `runChunk` below. -/
def charFold (p : PState) (cs : List Char) : PState × Option String :=
  match cs with
  | [] => ({ p with currentChar := "" }, none)
  | c :: rest =>
    match stepOne p c with
    | (p2, none) => charFold p2 rest
    | (p2, some e) => (p2, some e)

/-- `write(chunk)`.  `none` for the chunk is `write(undefined)`, which calls
`end()`.  The second component is a `throw` escaping the call (the latched
error, or an internal throw from the loop), with the state at the throw
point. -/
def writeFn (p : PState) (chunk : Option (List Char)) :
    PState × Option String :=
  match p.error with
  | some e => (p, some e)
  | none =>
    let p :=
      if p.closed then
        emitErrorFn p "Cannot write after close. Assign an onready handler."
      else p
    match chunk with
    | none => (endFn p, none)
    | some cs =>
      match runChunk p cs with
      | (p, some e) => (p, some e)
      | (p, none) =>
        if (p.position : Int) ≥ p.bufferCheckPosition then
          (checkBufferLengthFn p, none)
        else (p, none)

/-- `resume()`. -/
def resumeFn (p : PState) : PState :=
  { p with error := none }

/-- A sequence of `write` calls by a driver that survives thrown errors (the
thrown exception is the caller's to handle; the parser state is whatever it
was at the throw point). -/
def runWrites (p : PState) (chunks : List (List Char)) : PState :=
  chunks.foldl (fun q cs => (writeFn q (some cs)).1) p

/-- A full parse: the given `write` calls followed by `end()`. -/
def runAll (strict : Bool) (opts : Options) (chunks : List (List Char)) :
    PState :=
  endFn (runWrites (initP strict opts) chunks)

/-! ## Invariants of the dispatch: configuration fields and error latching

`core` collects the fields that no state-machine action ever writes: the
options, strictness, the closed flag, the scheduled buffer-check offset, and —
since only `_updatePosition` advances it — the position.  `ErrM` says the
latched error can only be introduced or overwritten by an action, never
cleared. -/

def core (p : PState) : Options × Bool × Bool × Int × Nat :=
  (p.opts, p.strict, p.closed, p.bufferCheckPosition, p.position)

theorem core_opts {q p : PState} (h : core q = core p) : q.opts = p.opts :=
  congrArg (fun t => t.1) h

theorem core_strict {q p : PState} (h : core q = core p) :
    q.strict = p.strict :=
  congrArg (fun t => t.2.1) h

theorem core_closed {q p : PState} (h : core q = core p) :
    q.closed = p.closed :=
  congrArg (fun t => t.2.2.1) h

theorem core_bcp {q p : PState} (h : core q = core p) :
    q.bufferCheckPosition = p.bufferCheckPosition :=
  congrArg (fun t => t.2.2.2.1) h

theorem core_position {q p : PState} (h : core q = core p) :
    q.position = p.position :=
  congrArg (fun t => t.2.2.2.2) h

def ErrM (p q : PState) : Prop :=
  q.error = p.error ∨ q.error.isSome = true

theorem ErrM.refl (p : PState) : ErrM p p := Or.inl rfl

theorem ErrM.trans {p q r : PState} (h1 : ErrM p q) (h2 : ErrM q r) :
    ErrM p r := by
  rcases h2 with h2 | h2
  · rcases h1 with h1 | h1
    · exact Or.inl (h2.trans h1)
    · exact Or.inr (h2 ▸ h1)
  · exact Or.inr h2

theorem ErrM.of_eq {p q : PState} (h : q.error = p.error) : ErrM p q :=
  Or.inl h

theorem ErrM.of_isSome {p q : PState} (h : q.error.isSome = true) :
    ErrM p q :=
  Or.inr h

/-- `ErrM` contrapositive: an error-free end state means an error-free start
state. -/
theorem ErrM.none_of {p q : PState} (h : ErrM p q) (hq : q.error = none) :
    p.error = none := by
  rcases h with h | h
  · rw [← h, hq]
  · rw [hq] at h; simp at h

/-- A generic invariant carrier through `List.foldl`. -/
theorem foldl_inv {σ α β : Type _} (g : σ → β) (f : σ → α → σ)
    (h : ∀ q a, g (f q a) = g q) :
    ∀ (l : List α) (p : σ), g (l.foldl f p) = g p := by
  intro l
  induction l with
  | nil => intro p; rfl
  | cons a l ih => intro p; rw [List.foldl_cons, ih, h]

/-- `ErrM` carried through `List.foldl` on states. -/
theorem foldl_errM {α : Type} (f : PState → α → PState)
    (h : ∀ q a, ErrM q (f q a)) :
    ∀ (l : List α) (p : PState), ErrM p (l.foldl f p) := by
  intro l
  induction l with
  | nil => intro p; exact ErrM.refl p
  | cons a l ih => intro p; exact (h p a).trans (ih (f p a))

@[simp] theorem emitE_opts (p : PState) (e : Event) :
    (emitE p e).opts = p.opts := rfl
@[simp] theorem emitE_strict (p : PState) (e : Event) :
    (emitE p e).strict = p.strict := rfl
@[simp] theorem emitE_closed (p : PState) (e : Event) :
    (emitE p e).closed = p.closed := rfl
@[simp] theorem emitE_bcp (p : PState) (e : Event) :
    (emitE p e).bufferCheckPosition = p.bufferCheckPosition := rfl
@[simp] theorem emitE_position (p : PState) (e : Event) :
    (emitE p e).position = p.position := rfl
@[simp] theorem emitE_error (p : PState) (e : Event) :
    (emitE p e).error = p.error := rfl

@[simp] theorem bmod_opts (p : PState) (f : Buffer → Buffer) :
    (bmod p f).opts = p.opts := rfl
@[simp] theorem bmod_strict (p : PState) (f : Buffer → Buffer) :
    (bmod p f).strict = p.strict := rfl
@[simp] theorem bmod_closed (p : PState) (f : Buffer → Buffer) :
    (bmod p f).closed = p.closed := rfl
@[simp] theorem bmod_bcp (p : PState) (f : Buffer → Buffer) :
    (bmod p f).bufferCheckPosition = p.bufferCheckPosition := rfl
@[simp] theorem bmod_position (p : PState) (f : Buffer → Buffer) :
    (bmod p f).position = p.position := rfl
@[simp] theorem bmod_error (p : PState) (f : Buffer → Buffer) :
    (bmod p f).error = p.error := rfl

@[simp] theorem closeTextFn_opts (p : PState) :
    (closeTextFn p).opts = p.opts := by
  simp only [closeTextFn]; split <;> rfl
@[simp] theorem closeTextFn_strict (p : PState) :
    (closeTextFn p).strict = p.strict := by
  simp only [closeTextFn]; split <;> rfl
@[simp] theorem closeTextFn_closed (p : PState) :
    (closeTextFn p).closed = p.closed := by
  simp only [closeTextFn]; split <;> rfl
@[simp] theorem closeTextFn_bcp (p : PState) :
    (closeTextFn p).bufferCheckPosition = p.bufferCheckPosition := by
  simp only [closeTextFn]; split <;> rfl
@[simp] theorem closeTextFn_position (p : PState) :
    (closeTextFn p).position = p.position := by
  simp only [closeTextFn]; split <;> rfl
@[simp] theorem closeTextFn_error (p : PState) :
    (closeTextFn p).error = p.error := by
  simp only [closeTextFn]; split <;> rfl

@[simp] theorem flushText_opts (p : PState) :
    (flushText p).opts = p.opts := by
  simp only [flushText]; split <;> simp
@[simp] theorem flushText_strict (p : PState) :
    (flushText p).strict = p.strict := by
  simp only [flushText]; split <;> simp
@[simp] theorem flushText_closed (p : PState) :
    (flushText p).closed = p.closed := by
  simp only [flushText]; split <;> simp
@[simp] theorem flushText_bcp (p : PState) :
    (flushText p).bufferCheckPosition = p.bufferCheckPosition := by
  simp only [flushText]; split <;> simp
@[simp] theorem flushText_position (p : PState) :
    (flushText p).position = p.position := by
  simp only [flushText]; split <;> simp
@[simp] theorem flushText_error (p : PState) :
    (flushText p).error = p.error := by
  simp only [flushText]; split <;> simp

@[simp] theorem emitErrorFn_opts (p : PState) (m : String) :
    (emitErrorFn p m).opts = p.opts := by
  simp only [emitErrorFn]; simp
@[simp] theorem emitErrorFn_strict (p : PState) (m : String) :
    (emitErrorFn p m).strict = p.strict := by
  simp only [emitErrorFn]; simp
@[simp] theorem emitErrorFn_closed (p : PState) (m : String) :
    (emitErrorFn p m).closed = p.closed := by
  simp only [emitErrorFn]; simp
@[simp] theorem emitErrorFn_bcp (p : PState) (m : String) :
    (emitErrorFn p m).bufferCheckPosition = p.bufferCheckPosition := by
  simp only [emitErrorFn]; simp
@[simp] theorem emitErrorFn_position (p : PState) (m : String) :
    (emitErrorFn p m).position = p.position := by
  simp only [emitErrorFn]; simp
@[simp] theorem emitErrorFn_error_isSome (p : PState) (m : String) :
    (emitErrorFn p m).error.isSome = true := by
  simp only [emitErrorFn]; simp

@[simp] theorem strictFailFn_opts (p : PState) (m : String) :
    (strictFailFn p m).opts = p.opts := by
  simp only [strictFailFn]; split <;> simp
@[simp] theorem strictFailFn_strict (p : PState) (m : String) :
    (strictFailFn p m).strict = p.strict := by
  simp only [strictFailFn]; split <;> simp
@[simp] theorem strictFailFn_closed (p : PState) (m : String) :
    (strictFailFn p m).closed = p.closed := by
  simp only [strictFailFn]; split <;> simp
@[simp] theorem strictFailFn_bcp (p : PState) (m : String) :
    (strictFailFn p m).bufferCheckPosition = p.bufferCheckPosition := by
  simp only [strictFailFn]; split <;> simp
@[simp] theorem strictFailFn_position (p : PState) (m : String) :
    (strictFailFn p m).position = p.position := by
  simp only [strictFailFn]; split <;> simp

theorem errM_emitErrorFn (p : PState) (m : String) :
    ErrM p (emitErrorFn p m) :=
  ErrM.of_isSome (emitErrorFn_error_isSome p m)

theorem errM_strictFailFn (p : PState) (m : String) :
    ErrM p (strictFailFn p m) := by
  simp only [strictFailFn]; split
  · exact errM_emitErrorFn p m
  · exact ErrM.refl p

/-! Composite operations preserve `core` and respect `ErrM`. -/

theorem core_newTagFn (p : PState) : core (newTagFn p) = core p := by
  simp only [newTagFn]; simp [core]

@[simp] theorem newTagFn_opts (p : PState) : (newTagFn p).opts = p.opts :=
  core_opts (core_newTagFn p)
@[simp] theorem newTagFn_strict (p : PState) :
    (newTagFn p).strict = p.strict :=
  core_strict (core_newTagFn p)
@[simp] theorem newTagFn_closed (p : PState) :
    (newTagFn p).closed = p.closed :=
  core_closed (core_newTagFn p)
@[simp] theorem newTagFn_bcp (p : PState) :
    (newTagFn p).bufferCheckPosition = p.bufferCheckPosition :=
  core_bcp (core_newTagFn p)
@[simp] theorem newTagFn_position (p : PState) :
    (newTagFn p).position = p.position :=
  core_position (core_newTagFn p)
@[simp] theorem newTagFn_error (p : PState) :
    (newTagFn p).error = p.error := by
  simp only [newTagFn]; simp

theorem core_parseEntityFn (p : PState) :
    core (parseEntityFn p).1 = core p := by
  simp only [parseEntityFn]
  repeat' split
  all_goals simp [core]

@[simp] theorem parseEntityFn_opts (p : PState) :
    (parseEntityFn p).1.opts = p.opts :=
  core_opts (core_parseEntityFn p)
@[simp] theorem parseEntityFn_strict (p : PState) :
    (parseEntityFn p).1.strict = p.strict :=
  core_strict (core_parseEntityFn p)
@[simp] theorem parseEntityFn_closed (p : PState) :
    (parseEntityFn p).1.closed = p.closed :=
  core_closed (core_parseEntityFn p)
@[simp] theorem parseEntityFn_bcp (p : PState) :
    (parseEntityFn p).1.bufferCheckPosition = p.bufferCheckPosition :=
  core_bcp (core_parseEntityFn p)
@[simp] theorem parseEntityFn_position (p : PState) :
    (parseEntityFn p).1.position = p.position :=
  core_position (core_parseEntityFn p)

theorem errM_parseEntityFn (p : PState) : ErrM p (parseEntityFn p).1 := by
  simp only [parseEntityFn]
  repeat' split
  all_goals first
    | exact ErrM.refl _
    | exact errM_strictFailFn _ _

theorem core_attribFn (p : PState) : core (attribFn p) = core p := by
  simp only [attribFn]
  repeat' split
  all_goals simp [core]

@[simp] theorem attribFn_opts (p : PState) : (attribFn p).opts = p.opts :=
  core_opts (core_attribFn p)
@[simp] theorem attribFn_strict (p : PState) :
    (attribFn p).strict = p.strict :=
  core_strict (core_attribFn p)
@[simp] theorem attribFn_closed (p : PState) :
    (attribFn p).closed = p.closed :=
  core_closed (core_attribFn p)
@[simp] theorem attribFn_bcp (p : PState) :
    (attribFn p).bufferCheckPosition = p.bufferCheckPosition :=
  core_bcp (core_attribFn p)
@[simp] theorem attribFn_position (p : PState) :
    (attribFn p).position = p.position :=
  core_position (core_attribFn p)

theorem errM_attribFn (p : PState) : ErrM p (attribFn p) := by
  simp only [attribFn, strictFailFn]
  repeat' split
  all_goals first
    | exact ErrM.refl _
    | (apply ErrM.of_eq; simp; done)
    | (apply ErrM.of_isSome; simp; done)

theorem core_nsEmitOpen (p : PState) (kv : String × String) :
    core (nsEmitOpen p kv) = core p := by
  simp only [nsEmitOpen]; simp [core]

theorem core_nsEmitClose (p : PState) (kv : String × String) :
    core (nsEmitClose p kv) = core p := by
  simp only [nsEmitClose]; simp [core]

@[simp] theorem nsEmitOpen_error (p : PState) (kv : String × String) :
    (nsEmitOpen p kv).error = p.error := by
  simp only [nsEmitOpen]; simp

@[simp] theorem nsEmitClose_error (p : PState) (kv : String × String) :
    (nsEmitClose p kv).error = p.error := by
  simp only [nsEmitClose]; simp

theorem core_attribCommitStep (acc : PState × Tag) (nv : String × String) :
    core (attribCommitStep acc nv).1 = core acc.1 := by
  obtain ⟨p, t⟩ := acc
  simp only [attribCommitStep]
  repeat' split
  all_goals simp [core]

theorem errM_attribCommitStep (acc : PState × Tag) (nv : String × String) :
    ErrM acc.1 (attribCommitStep acc nv).1 := by
  obtain ⟨p, t⟩ := acc
  simp only [attribCommitStep, strictFailFn]
  repeat' split
  all_goals first
    | (apply ErrM.of_eq; simp; done)
    | (apply ErrM.of_isSome; simp; done)

theorem core_foldl_attribCommit (l : List (String × String))
    (s : PState × Tag) :
    core (l.foldl attribCommitStep s).1 = core s.1 :=
  foldl_inv (g := fun x => core x.1) attribCommitStep
    (fun q a => core_attribCommitStep q a) l s

@[simp] theorem foldl_attribCommit_opts (l : List (String × String))
    (s : PState × Tag) : (l.foldl attribCommitStep s).1.opts = s.1.opts :=
  core_opts (core_foldl_attribCommit l s)
@[simp] theorem foldl_attribCommit_strict (l : List (String × String))
    (s : PState × Tag) : (l.foldl attribCommitStep s).1.strict = s.1.strict :=
  core_strict (core_foldl_attribCommit l s)
@[simp] theorem foldl_attribCommit_closed (l : List (String × String))
    (s : PState × Tag) : (l.foldl attribCommitStep s).1.closed = s.1.closed :=
  core_closed (core_foldl_attribCommit l s)
@[simp] theorem foldl_attribCommit_bcp (l : List (String × String))
    (s : PState × Tag) :
    (l.foldl attribCommitStep s).1.bufferCheckPosition =
      s.1.bufferCheckPosition :=
  core_bcp (core_foldl_attribCommit l s)
@[simp] theorem foldl_attribCommit_position (l : List (String × String))
    (s : PState × Tag) :
    (l.foldl attribCommitStep s).1.position = s.1.position :=
  core_position (core_foldl_attribCommit l s)

theorem core_foldl_nsEmitOpen (l : List (String × String)) (q : PState) :
    core (l.foldl nsEmitOpen q) = core q :=
  foldl_inv (g := core) nsEmitOpen (fun q a => core_nsEmitOpen q a) l q

theorem core_foldl_nsEmitClose (l : List (String × String)) (q : PState) :
    core (l.foldl nsEmitClose q) = core q :=
  foldl_inv (g := core) nsEmitClose (fun q a => core_nsEmitClose q a) l q

@[simp] theorem foldl_nsEmitOpen_opts (l : List (String × String))
    (q : PState) : (l.foldl nsEmitOpen q).opts = q.opts :=
  core_opts (core_foldl_nsEmitOpen l q)
@[simp] theorem foldl_nsEmitOpen_strict (l : List (String × String))
    (q : PState) : (l.foldl nsEmitOpen q).strict = q.strict :=
  core_strict (core_foldl_nsEmitOpen l q)
@[simp] theorem foldl_nsEmitOpen_closed (l : List (String × String))
    (q : PState) : (l.foldl nsEmitOpen q).closed = q.closed :=
  core_closed (core_foldl_nsEmitOpen l q)
@[simp] theorem foldl_nsEmitOpen_bcp (l : List (String × String))
    (q : PState) :
    (l.foldl nsEmitOpen q).bufferCheckPosition = q.bufferCheckPosition :=
  core_bcp (core_foldl_nsEmitOpen l q)
@[simp] theorem foldl_nsEmitOpen_position (l : List (String × String))
    (q : PState) : (l.foldl nsEmitOpen q).position = q.position :=
  core_position (core_foldl_nsEmitOpen l q)

@[simp] theorem foldl_nsEmitClose_opts (l : List (String × String))
    (q : PState) : (l.foldl nsEmitClose q).opts = q.opts :=
  core_opts (core_foldl_nsEmitClose l q)
@[simp] theorem foldl_nsEmitClose_strict (l : List (String × String))
    (q : PState) : (l.foldl nsEmitClose q).strict = q.strict :=
  core_strict (core_foldl_nsEmitClose l q)
@[simp] theorem foldl_nsEmitClose_closed (l : List (String × String))
    (q : PState) : (l.foldl nsEmitClose q).closed = q.closed :=
  core_closed (core_foldl_nsEmitClose l q)
@[simp] theorem foldl_nsEmitClose_bcp (l : List (String × String))
    (q : PState) :
    (l.foldl nsEmitClose q).bufferCheckPosition = q.bufferCheckPosition :=
  core_bcp (core_foldl_nsEmitClose l q)
@[simp] theorem foldl_nsEmitClose_position (l : List (String × String))
    (q : PState) : (l.foldl nsEmitClose q).position = q.position :=
  core_position (core_foldl_nsEmitClose l q)

theorem core_openTagNsFn (p : PState) (t : Tag) :
    core (openTagNsFn p t).1 = core p := by
  simp only [openTagNsFn]
  repeat' split
  all_goals simp [core]

theorem errM_foldl_pair (l : List (String × String)) (s : PState × Tag) :
    ErrM s.1 (l.foldl attribCommitStep s).1 := by
  induction l generalizing s with
  | nil => exact ErrM.refl _
  | cons a l ih =>
    exact (errM_attribCommitStep s a).trans (ih (attribCommitStep s a))

@[simp] theorem foldl_nsEmitOpen_error (l : List (String × String))
    (q : PState) : (l.foldl nsEmitOpen q).error = q.error :=
  foldl_inv (g := PState.error) nsEmitOpen (fun q a => nsEmitOpen_error q a)
    l q

@[simp] theorem foldl_nsEmitClose_error (l : List (String × String))
    (q : PState) : (l.foldl nsEmitClose q).error = q.error :=
  foldl_inv (g := PState.error) nsEmitClose (fun q a => nsEmitClose_error q a)
    l q

theorem errM_openTagNsFn (p : PState) (t : Tag) :
    ErrM p (openTagNsFn p t).1 := by
  simp only [openTagNsFn, strictFailFn]
  repeat' split
  all_goals
    refine ErrM.trans ?_ ((errM_foldl_pair _ _).trans (ErrM.of_eq rfl))
  all_goals first
    | exact ErrM.refl _
    | (apply ErrM.of_eq; simp; done)
    | (apply ErrM.of_isSome; simp; done)

theorem core_strictFailFn (p : PState) (m : String) :
    core (strictFailFn p m) = core p := by
  simp [core]

@[simp] theorem openTagNsFn_opts (p : PState) (t : Tag) :
    (openTagNsFn p t).1.opts = p.opts :=
  core_opts (core_openTagNsFn p t)
@[simp] theorem openTagNsFn_strict (p : PState) (t : Tag) :
    (openTagNsFn p t).1.strict = p.strict :=
  core_strict (core_openTagNsFn p t)
@[simp] theorem openTagNsFn_closed (p : PState) (t : Tag) :
    (openTagNsFn p t).1.closed = p.closed :=
  core_closed (core_openTagNsFn p t)
@[simp] theorem openTagNsFn_bcp (p : PState) (t : Tag) :
    (openTagNsFn p t).1.bufferCheckPosition = p.bufferCheckPosition :=
  core_bcp (core_openTagNsFn p t)
@[simp] theorem openTagNsFn_position (p : PState) (t : Tag) :
    (openTagNsFn p t).1.position = p.position :=
  core_position (core_openTagNsFn p t)

theorem core_openTagFn (p : PState) (sc : Bool) :
    core (openTagFn p sc) = core p := by
  simp only [openTagFn]
  repeat' split
  all_goals simp [core]

@[simp] theorem openTagFn_opts (p : PState) (sc : Bool) :
    (openTagFn p sc).opts = p.opts :=
  core_opts (core_openTagFn p sc)
@[simp] theorem openTagFn_strict (p : PState) (sc : Bool) :
    (openTagFn p sc).strict = p.strict :=
  core_strict (core_openTagFn p sc)
@[simp] theorem openTagFn_closed (p : PState) (sc : Bool) :
    (openTagFn p sc).closed = p.closed :=
  core_closed (core_openTagFn p sc)
@[simp] theorem openTagFn_bcp (p : PState) (sc : Bool) :
    (openTagFn p sc).bufferCheckPosition = p.bufferCheckPosition :=
  core_bcp (core_openTagFn p sc)
@[simp] theorem openTagFn_position (p : PState) (sc : Bool) :
    (openTagFn p sc).position = p.position :=
  core_position (core_openTagFn p sc)

theorem errM_openTagFn (p : PState) (sc : Bool) : ErrM p (openTagFn p sc) := by
  simp only [openTagFn]
  split
  · exact ErrM.of_isSome (by simp)
  · rename_i tag htag
    repeat' split
    all_goals first
      | (apply ErrM.of_eq; simp; done)
      | (refine (errM_openTagNsFn p tag).trans (ErrM.of_eq ?_); simp; done)

theorem core_closeWalk (stack : List Tag) (closeTo : String) :
    ∀ p, core (closeWalk p stack closeTo).1 = core p := by
  induction stack with
  | nil => intro p; rfl
  | cons t rest ih =>
    intro p
    simp only [closeWalk]
    split
    · rfl
    · have h1 := ih (strictFailFn p "Unexpected close tag")
      rcases hw : closeWalk (strictFailFn p "Unexpected close tag") rest
          closeTo with ⟨p2, j⟩
      rw [hw] at h1
      cases j <;>
        simpa using h1.trans (core_strictFailFn p "Unexpected close tag")

theorem errM_closeWalk (stack : List Tag) (closeTo : String) :
    ∀ p, ErrM p (closeWalk p stack closeTo).1 := by
  induction stack with
  | nil => intro p; exact ErrM.refl p
  | cons t rest ih =>
    intro p
    simp only [closeWalk]
    split
    · exact ErrM.refl p
    · have h1 := ih (strictFailFn p "Unexpected close tag")
      rcases hw : closeWalk (strictFailFn p "Unexpected close tag") rest
          closeTo with ⟨p2, j⟩
      rw [hw] at h1
      have h2 := (errM_strictFailFn p "Unexpected close tag").trans h1
      cases j <;> simpa using h2

theorem core_popTags (k : Nat) : ∀ p, core (popTags p k) = core p := by
  induction k with
  | zero => intro p; rfl
  | succ k ih =>
    intro p
    simp only [popTags]
    split
    · rfl
    · rw [ih]
      repeat' split
      all_goals simp [core]

@[simp] theorem popTags_error (k : Nat) :
    ∀ p, (popTags p k).error = p.error := by
  induction k with
  | zero => intro p; rfl
  | succ k ih =>
    intro p
    simp only [popTags]
    split
    · rfl
    · rw [ih]
      repeat' split
      all_goals simp

@[simp] theorem popTags_opts (k : Nat) (p : PState) :
    (popTags p k).opts = p.opts :=
  core_opts (core_popTags k p)
@[simp] theorem popTags_strict (k : Nat) (p : PState) :
    (popTags p k).strict = p.strict :=
  core_strict (core_popTags k p)
@[simp] theorem popTags_closed (k : Nat) (p : PState) :
    (popTags p k).closed = p.closed :=
  core_closed (core_popTags k p)
@[simp] theorem popTags_bcp (k : Nat) (p : PState) :
    (popTags p k).bufferCheckPosition = p.bufferCheckPosition :=
  core_bcp (core_popTags k p)
@[simp] theorem popTags_position (k : Nat) (p : PState) :
    (popTags p k).position = p.position :=
  core_position (core_popTags k p)

theorem core_closeTagScriptFlush (p : PState) :
    core (closeTagScriptFlush p) = core p := by
  simp only [closeTagScriptFlush]
  split <;> simp [core]

@[simp] theorem closeTagScriptFlush_error (p : PState) :
    (closeTagScriptFlush p).error = p.error := by
  simp only [closeTagScriptFlush]
  split <;> simp

theorem core_closeTagFn (p : PState) : core (closeTagFn p) = core p := by
  simp only [closeTagFn]
  split
  · simp [core]
  · split
    · rfl
    · rcases hw : closeWalk (closeTagScriptFlush p)
          (closeTagScriptFlush p).tags
          (closeToName (closeTagScriptFlush p)) with ⟨p2, j⟩
      have h1 := core_closeWalk (closeTagScriptFlush p).tags
        (closeToName (closeTagScriptFlush p)) (closeTagScriptFlush p)
      rw [hw] at h1
      have hc : core p2 = core p := h1.trans (core_closeTagScriptFlush p)
      rcases j with _ | j <;> simp only [hw]
      · simp [core, core_opts hc, core_strict hc, core_closed hc,
          core_bcp hc, core_position hc]
      · repeat' split
        all_goals simp [core, core_opts hc, core_strict hc, core_closed hc,
          core_bcp hc, core_position hc]

@[simp] theorem closeTagFn_opts (p : PState) :
    (closeTagFn p).opts = p.opts :=
  core_opts (core_closeTagFn p)
@[simp] theorem closeTagFn_strict (p : PState) :
    (closeTagFn p).strict = p.strict :=
  core_strict (core_closeTagFn p)
@[simp] theorem closeTagFn_closed (p : PState) :
    (closeTagFn p).closed = p.closed :=
  core_closed (core_closeTagFn p)
@[simp] theorem closeTagFn_bcp (p : PState) :
    (closeTagFn p).bufferCheckPosition = p.bufferCheckPosition :=
  core_bcp (core_closeTagFn p)
@[simp] theorem closeTagFn_position (p : PState) :
    (closeTagFn p).position = p.position :=
  core_position (core_closeTagFn p)

theorem errM_closeTagFn (p : PState) : ErrM p (closeTagFn p) := by
  simp only [closeTagFn]
  split
  · refine (errM_strictFailFn p "Weird empty close tag.").trans
      (ErrM.of_eq ?_)
    simp
  · split
    · exact ErrM.of_eq rfl
    · rcases hw : closeWalk (closeTagScriptFlush p)
          (closeTagScriptFlush p).tags
          (closeToName (closeTagScriptFlush p)) with ⟨p2, j⟩
      have h1 := errM_closeWalk (closeTagScriptFlush p).tags
        (closeToName (closeTagScriptFlush p)) (closeTagScriptFlush p)
      rw [hw] at h1
      have hc : ErrM p p2 :=
        (ErrM.of_eq (closeTagScriptFlush_error p)).trans h1
      rcases j with _ | j
      · simp only [hw]
        exact hc.trans ((errM_strictFailFn p2
          ("Unmatched closing tag: " ++ p2.buffer.tagName)).trans
          (ErrM.of_eq (by simp)))
      · simp only [hw]
        refine hc.trans (ErrM.of_eq ?_)
        repeat' split
        all_goals simp

theorem core_beginWhiteSpaceFn (p : PState) (c : Char) :
    core (beginWhiteSpaceFn p c) = core p := by
  simp only [beginWhiteSpaceFn]
  repeat' split
  all_goals simp [core]

@[simp] theorem beginWhiteSpaceFn_opts (p : PState) (c : Char) :
    (beginWhiteSpaceFn p c).opts = p.opts :=
  core_opts (core_beginWhiteSpaceFn p c)
@[simp] theorem beginWhiteSpaceFn_strict (p : PState) (c : Char) :
    (beginWhiteSpaceFn p c).strict = p.strict :=
  core_strict (core_beginWhiteSpaceFn p c)
@[simp] theorem beginWhiteSpaceFn_closed (p : PState) (c : Char) :
    (beginWhiteSpaceFn p c).closed = p.closed :=
  core_closed (core_beginWhiteSpaceFn p c)
@[simp] theorem beginWhiteSpaceFn_bcp (p : PState) (c : Char) :
    (beginWhiteSpaceFn p c).bufferCheckPosition = p.bufferCheckPosition :=
  core_bcp (core_beginWhiteSpaceFn p c)
@[simp] theorem beginWhiteSpaceFn_position (p : PState) (c : Char) :
    (beginWhiteSpaceFn p c).position = p.position :=
  core_position (core_beginWhiteSpaceFn p c)

theorem errM_beginWhiteSpaceFn (p : PState) (c : Char) :
    ErrM p (beginWhiteSpaceFn p c) := by
  simp only [beginWhiteSpaceFn, strictFailFn]
  repeat' split
  all_goals first
    | exact ErrM.refl _
    | (apply ErrM.of_eq; simp; done)
    | (apply ErrM.of_isSome; simp; done)

theorem core_entityStep (p : PState) (c : Char) (rs : State) (tt : Bool) :
    core (dispatchOne.entityStep p c rs tt).1 = core p := by
  simp only [dispatchOne.entityStep]
  repeat' split
  all_goals simp [core]

@[simp] theorem entityStep_opts (p : PState) (c : Char) (rs : State)
    (tt : Bool) : (dispatchOne.entityStep p c rs tt).1.opts = p.opts :=
  core_opts (core_entityStep p c rs tt)
@[simp] theorem entityStep_strict (p : PState) (c : Char) (rs : State)
    (tt : Bool) : (dispatchOne.entityStep p c rs tt).1.strict = p.strict :=
  core_strict (core_entityStep p c rs tt)
@[simp] theorem entityStep_closed (p : PState) (c : Char) (rs : State)
    (tt : Bool) : (dispatchOne.entityStep p c rs tt).1.closed = p.closed :=
  core_closed (core_entityStep p c rs tt)
@[simp] theorem entityStep_bcp (p : PState) (c : Char) (rs : State)
    (tt : Bool) :
    (dispatchOne.entityStep p c rs tt).1.bufferCheckPosition =
      p.bufferCheckPosition :=
  core_bcp (core_entityStep p c rs tt)
@[simp] theorem entityStep_position (p : PState) (c : Char) (rs : State)
    (tt : Bool) : (dispatchOne.entityStep p c rs tt).1.position = p.position :=
  core_position (core_entityStep p c rs tt)

theorem errM_entityStep (p : PState) (c : Char) (rs : State) (tt : Bool) :
    ErrM p (dispatchOne.entityStep p c rs tt).1 := by
  simp only [dispatchOne.entityStep, strictFailFn]
  repeat' split
  all_goals first
    | exact ErrM.refl _
    | (apply ErrM.of_eq; simp; done)
    | (apply ErrM.of_isSome; simp; done)
    | (refine (errM_parseEntityFn p).trans (ErrM.of_eq ?_); simp; done)

@[simp] theorem updatePositionF_opts (p : PState) (c : Char) :
    (updatePositionF p c).opts = p.opts := by
  simp only [updatePositionF]; repeat' split
  all_goals rfl
@[simp] theorem updatePositionF_strict (p : PState) (c : Char) :
    (updatePositionF p c).strict = p.strict := by
  simp only [updatePositionF]; repeat' split
  all_goals rfl
@[simp] theorem updatePositionF_closed (p : PState) (c : Char) :
    (updatePositionF p c).closed = p.closed := by
  simp only [updatePositionF]; repeat' split
  all_goals rfl
@[simp] theorem updatePositionF_bcp (p : PState) (c : Char) :
    (updatePositionF p c).bufferCheckPosition = p.bufferCheckPosition := by
  simp only [updatePositionF]; repeat' split
  all_goals rfl
@[simp] theorem updatePositionF_error (p : PState) (c : Char) :
    (updatePositionF p c).error = p.error := by
  simp only [updatePositionF]; repeat' split
  all_goals rfl

@[simp] theorem bmod_state (p : PState) (f : Buffer → Buffer) :
    (bmod p f).state = p.state := rfl
@[simp] theorem bmod_sawRoot (p : PState) (f : Buffer → Buffer) :
    (bmod p f).sawRoot = p.sawRoot := rfl
@[simp] theorem bmod_closedRoot (p : PState) (f : Buffer → Buffer) :
    (bmod p f).closedRoot = p.closedRoot := rfl
@[simp] theorem bmod_tags (p : PState) (f : Buffer → Buffer) :
    (bmod p f).tags = p.tags := rfl
@[simp] theorem bmod_tag (p : PState) (f : Buffer → Buffer) :
    (bmod p f).tag = p.tag := rfl
@[simp] theorem bmod_trace (p : PState) (f : Buffer → Buffer) :
    (bmod p f).trace = p.trace := rfl
@[simp] theorem bmod_attribList (p : PState) (f : Buffer → Buffer) :
    (bmod p f).attribList = p.attribList := rfl
@[simp] theorem bmod_currentChar (p : PState) (f : Buffer → Buffer) :
    (bmod p f).currentChar = p.currentChar := rfl
@[simp] theorem bmod_previousChar (p : PState) (f : Buffer → Buffer) :
    (bmod p f).previousChar = p.previousChar := rfl
@[simp] theorem bmod_buffer (p : PState) (f : Buffer → Buffer) :
    (bmod p f).buffer = f p.buffer := rfl
@[simp] theorem bmod_line (p : PState) (f : Buffer → Buffer) :
    (bmod p f).line = p.line := rfl
@[simp] theorem bmod_column (p : PState) (f : Buffer → Buffer) :
    (bmod p f).column = p.column := rfl
@[simp] theorem bmod_startTagPosition (p : PState) (f : Buffer → Buffer) :
    (bmod p f).startTagPosition = p.startTagPosition := rfl

@[simp] theorem emitE_state (p : PState) (e : Event) :
    (emitE p e).state = p.state := rfl
@[simp] theorem emitE_sawRoot (p : PState) (e : Event) :
    (emitE p e).sawRoot = p.sawRoot := rfl
@[simp] theorem emitE_closedRoot (p : PState) (e : Event) :
    (emitE p e).closedRoot = p.closedRoot := rfl
@[simp] theorem emitE_tags (p : PState) (e : Event) :
    (emitE p e).tags = p.tags := rfl
@[simp] theorem emitE_tag (p : PState) (e : Event) :
    (emitE p e).tag = p.tag := rfl
@[simp] theorem emitE_attribList (p : PState) (e : Event) :
    (emitE p e).attribList = p.attribList := rfl
@[simp] theorem emitE_buffer (p : PState) (e : Event) :
    (emitE p e).buffer = p.buffer := rfl
@[simp] theorem emitE_currentChar (p : PState) (e : Event) :
    (emitE p e).currentChar = p.currentChar := rfl
@[simp] theorem emitE_previousChar (p : PState) (e : Event) :
    (emitE p e).previousChar = p.previousChar := rfl
@[simp] theorem emitE_trace (p : PState) (e : Event) :
    (emitE p e).trace = p.trace ++ [e] := rfl

@[simp] theorem closeTextFn_state (p : PState) :
    (closeTextFn p).state = p.state := by
  simp only [closeTextFn]; split <;> rfl
@[simp] theorem closeTextFn_sawRoot (p : PState) :
    (closeTextFn p).sawRoot = p.sawRoot := by
  simp only [closeTextFn]; split <;> rfl
@[simp] theorem closeTextFn_closedRoot (p : PState) :
    (closeTextFn p).closedRoot = p.closedRoot := by
  simp only [closeTextFn]; split <;> rfl
@[simp] theorem closeTextFn_tags (p : PState) :
    (closeTextFn p).tags = p.tags := by
  simp only [closeTextFn]; split <;> rfl
@[simp] theorem closeTextFn_tag (p : PState) :
    (closeTextFn p).tag = p.tag := by
  simp only [closeTextFn]; split <;> rfl
@[simp] theorem closeTextFn_attribList (p : PState) :
    (closeTextFn p).attribList = p.attribList := by
  simp only [closeTextFn]; split <;> rfl
@[simp] theorem closeTextFn_currentChar (p : PState) :
    (closeTextFn p).currentChar = p.currentChar := by
  simp only [closeTextFn]; split <;> rfl
@[simp] theorem closeTextFn_previousChar (p : PState) :
    (closeTextFn p).previousChar = p.previousChar := by
  simp only [closeTextFn]; split <;> rfl

@[simp] theorem flushText_state (p : PState) :
    (flushText p).state = p.state := by
  simp only [flushText]; split <;> simp
@[simp] theorem flushText_sawRoot (p : PState) :
    (flushText p).sawRoot = p.sawRoot := by
  simp only [flushText]; split <;> simp
@[simp] theorem flushText_closedRoot (p : PState) :
    (flushText p).closedRoot = p.closedRoot := by
  simp only [flushText]; split <;> simp
@[simp] theorem flushText_tags (p : PState) :
    (flushText p).tags = p.tags := by
  simp only [flushText]; split <;> simp
@[simp] theorem flushText_tag (p : PState) :
    (flushText p).tag = p.tag := by
  simp only [flushText]; split <;> simp
@[simp] theorem flushText_attribList (p : PState) :
    (flushText p).attribList = p.attribList := by
  simp only [flushText]; split <;> simp
@[simp] theorem flushText_currentChar (p : PState) :
    (flushText p).currentChar = p.currentChar := by
  simp only [flushText]; split <;> simp
@[simp] theorem flushText_previousChar (p : PState) :
    (flushText p).previousChar = p.previousChar := by
  simp only [flushText]; split <;> simp

@[simp] theorem updatePositionF_state (p : PState) (c : Char) :
    (updatePositionF p c).state = p.state := by
  simp only [updatePositionF]; repeat' split
  all_goals rfl
@[simp] theorem updatePositionF_sawRoot (p : PState) (c : Char) :
    (updatePositionF p c).sawRoot = p.sawRoot := by
  simp only [updatePositionF]; repeat' split
  all_goals rfl
@[simp] theorem updatePositionF_closedRoot (p : PState) (c : Char) :
    (updatePositionF p c).closedRoot = p.closedRoot := by
  simp only [updatePositionF]; repeat' split
  all_goals rfl
@[simp] theorem updatePositionF_buffer (p : PState) (c : Char) :
    (updatePositionF p c).buffer = p.buffer := by
  simp only [updatePositionF]; repeat' split
  all_goals rfl
@[simp] theorem updatePositionF_tags (p : PState) (c : Char) :
    (updatePositionF p c).tags = p.tags := by
  simp only [updatePositionF]; repeat' split
  all_goals rfl
@[simp] theorem updatePositionF_trace (p : PState) (c : Char) :
    (updatePositionF p c).trace = p.trace := by
  simp only [updatePositionF]; repeat' split
  all_goals rfl
@[simp] theorem updatePositionF_tag (p : PState) (c : Char) :
    (updatePositionF p c).tag = p.tag := by
  simp only [updatePositionF]; repeat' split
  all_goals rfl
@[simp] theorem updatePositionF_attribList (p : PState) (c : Char) :
    (updatePositionF p c).attribList = p.attribList := by
  simp only [updatePositionF]; repeat' split
  all_goals rfl
@[simp] theorem updatePositionF_previousChar (p : PState) (c : Char) :
    (updatePositionF p c).previousChar = p.previousChar := by
  simp only [updatePositionF]; repeat' split
  all_goals rfl
@[simp] theorem updatePositionF_currentChar (p : PState) (c : Char) :
    (updatePositionF p c).currentChar = p.currentChar := by
  simp only [updatePositionF]; repeat' split
  all_goals rfl
@[simp] theorem updatePositionF_startTagPosition (p : PState) (c : Char) :
    (updatePositionF p c).startTagPosition = p.startTagPosition := by
  simp only [updatePositionF]; repeat' split
  all_goals rfl

/-- With position tracking off, `_updatePosition` does nothing at all. -/
theorem updatePositionF_off {p : PState} (h : p.opts.trackPosition = false)
    (c : Char) : updatePositionF p c = p := by
  simp [updatePositionF, h]

set_option maxHeartbeats 2000000 in
/-- The dispatch never writes the configuration fields, the scheduled check
offset, or the position. -/
theorem core_dispatchOne (p : PState) (c : Char) :
    core (dispatchOne p c).1 = core p := by
  cases hs : p.state <;> simp only [dispatchOne, hs]
  all_goals repeat' split
  all_goals simp [core]

set_option maxHeartbeats 2000000 in
/-- The dispatch never clears a latched error. -/
theorem errM_dispatchOne (p : PState) (c : Char) :
    ErrM p (dispatchOne p c).1 := by
  cases hs : p.state <;> simp only [dispatchOne, hs, strictFailFn]
  all_goals repeat' split
  all_goals first
    | exact ErrM.refl _
    | exact errM_entityStep _ _ _ _
    | (apply ErrM.of_eq; simp; done)
    | (apply ErrM.of_isSome; simp; done)
    | (refine ErrM.trans ?_ (errM_beginWhiteSpaceFn _ _)
       apply ErrM.of_eq; simp; done)
    | (refine ErrM.trans ?_ (errM_openTagFn _ _)
       first
         | (apply ErrM.of_eq; simp; done)
         | (apply ErrM.of_isSome; simp; done)
         | (refine ErrM.trans ?_ (errM_attribFn _)
            first
              | (apply ErrM.of_eq; simp; done)
              | (apply ErrM.of_isSome; simp; done)))
    | (refine ErrM.trans ?_ (errM_closeTagFn _)
       first
         | (apply ErrM.of_eq; simp; done)
         | (apply ErrM.of_isSome; simp; done)
         | (refine ErrM.trans ?_ (errM_openTagFn _ _)
            first
              | (apply ErrM.of_eq; simp; done)
              | (apply ErrM.of_isSome; simp; done)))
    | (refine ErrM.trans ?_ (errM_attribFn _)
       first
         | (apply ErrM.of_eq; simp; done)
         | (apply ErrM.of_isSome; simp; done))

/-! ## The bulk text scan is equivalent to per-character processing -/

/-- `charFold` ignores the incoming `currentChar` (it is overwritten before
every dispatch, and cleared at the end of the chunk). -/
theorem charFold_cc (cs : List Char) (p : PState) (x : String) :
    charFold { p with currentChar := x } cs = charFold p cs := by
  cases cs <;> rfl

/-- The chunk loop on an empty list just clears `currentChar`. -/
theorem runChunkAux_nil (fuel : Nat) (p : PState) :
    runChunkAux fuel p [] = ({ p with currentChar := "" }, none) := by
  cases fuel <;> rfl

/-- `_updatePosition` commutes with setting `currentChar`. -/
theorem updatePositionF_cc (p : PState) (c : Char) (x : String) :
    updatePositionF { p with currentChar := x } c =
      { updatePositionF p c with currentChar := x } := by
  simp only [updatePositionF]
  repeat' split
  all_goals rfl

/-- Closed form of the dispatch in state `Text` inside the root: no
strict-fail can fire and nothing is thrown. -/
theorem dispatchText (q : PState) (r : Char) (h1 : q.state = .Text)
    (h2 : q.sawRoot = true) (h3 : q.closedRoot = false) :
    dispatchOne q r =
      (if r = '<' then
        { q with state := .OpenWaka, startTagPosition := q.position }
      else if r = '&' then { q with state := .TextEntity }
      else bmod q (fun b =>
        { b with textNode := b.textNode ++ String.singleton r }), none) := by
  simp only [dispatchOne, h1]
  simp [h2, h3]
  split_ifs <;> rfl

/-- The guard fields of the fast path are untouched by `preStep`. -/
theorem preStep_guard (p : PState) (c : Char) :
    (preStep p c).state = p.state ∧ (preStep p c).sawRoot = p.sawRoot ∧
      (preStep p c).closedRoot = p.closedRoot := by
  simp only [preStep, updatePositionF]
  repeat' split
  all_goals exact ⟨rfl, rfl, rfl⟩

/-- Two states agreeing outside `currentChar` stay equal when both set it. -/
theorem setCc_eq {p q : PState}
    (h : ({ p with currentChar := "" } : PState) =
      { q with currentChar := "" }) (s : String) :
    ({ p with currentChar := s } : PState) = { q with currentChar := s } := by
  have h2 := congrArg
    (fun (x : PState) => ({ x with currentChar := s } : PState)) h
  simpa using h2

/-- `charFold` only reads the state outside `currentChar`. -/
theorem charFold_congr (p q : PState)
    (h : ({ p with currentChar := "" } : PState) =
      { q with currentChar := "" }) (cs : List Char) :
    charFold p cs = charFold q cs := by
  cases cs with
  | nil =>
    simp only [charFold]
    rw [h]
  | cons c rest =>
    simp only [charFold, stepOne, preStep]
    rw [setCc_eq h (String.singleton c)]

/-- One-step equations for `fastScan`. -/
theorem fastScan_lt (p : PState) (rest : List Char) :
    fastScan p '<' rest =
      ({ p with state := .OpenWaka, startTagPosition := p.position }, rest)
    := by
  rw [fastScan.eq_def]
  simp

theorem fastScan_amp (p : PState) (rest : List Char) :
    fastScan p '&' rest = ({ p with state := .TextEntity }, rest) := by
  rw [fastScan.eq_def]
  simp

theorem fastScan_step (p : PState) (c r : Char) (rest : List Char)
    (h1 : c ≠ '<') (h2 : c ≠ '&') :
    fastScan p c (r :: rest) =
      fastScan (updatePositionF (bmod p (fun b =>
        { b with textNode := b.textNode ++ String.singleton c })) r) r rest
    := by
  rw [fastScan.eq_def]
  simp [h1, h2]

theorem fastScan_last (p : PState) (c : Char) (h1 : c ≠ '<')
    (h2 : c ≠ '&') :
    fastScan p c [] =
      (bmod p (fun b =>
        { b with textNode := b.textNode ++ String.singleton c }), []) := by
  rw [fastScan.eq_def]
  simp [h1, h2]

set_option maxHeartbeats 2000000 in
/-- The fast scan, followed by the rest of the chunk loop, computes the same
result as per-character processing (given the per-character equivalence `IH`
for shorter suffixes). -/
theorem fastScan_charFold (n : Nat)
    (IH : ∀ fuel cs p, cs.length ≤ fuel → cs.length ≤ n →
      runChunkAux fuel p cs = charFold p cs) :
    ∀ (rest : List Char) (c : Char) (p : PState) (f : Nat),
      rest.length ≤ f → rest.length ≤ n →
      p.state = .Text → p.sawRoot = true → p.closedRoot = false →
      runChunkAux f (fastScan p c rest).1 (fastScan p c rest).2 =
        (match dispatchOne p c with
         | (p2, none) => charFold p2 rest
         | (p2, some e) => (p2, some e)) := by
  intro rest
  induction rest with
  | nil =>
    intro c p f _ _ h1 h2 h3
    have hD := dispatchText p c h1 h2 h3
    by_cases hlt : c = '<'
    · subst hlt
      rw [if_pos rfl] at hD
      rw [fastScan_lt]
      simp only [hD, runChunkAux_nil]
      rfl
    · by_cases hamp : c = '&'
      · subst hamp
        rw [if_neg hlt, if_pos rfl] at hD
        rw [fastScan_amp]
        simp only [hD, runChunkAux_nil]
        rfl
      · rw [if_neg hlt, if_neg hamp] at hD
        rw [fastScan_last p c hlt hamp]
        simp only [hD, runChunkAux_nil]
        rfl
  | cons r rest ih =>
    intro c p f hf hn h1 h2 h3
    have hD := dispatchText p c h1 h2 h3
    by_cases hlt : c = '<'
    · subst hlt
      rw [if_pos rfl] at hD
      rw [fastScan_lt]
      simp only [hD]
      exact IH f (r :: rest) _ hf hn
    · by_cases hamp : c = '&'
      · subst hamp
        rw [if_neg hlt, if_pos rfl] at hD
        rw [fastScan_amp]
        simp only [hD]
        exact IH f (r :: rest) _ hf hn
      · rw [if_neg hlt, if_neg hamp] at hD
        rw [fastScan_step p c r rest hlt hamp]
        simp only [hD]
        -- one run character is consumed; recurse on the updated state
        have hg := ih r (updatePositionF (bmod p (fun b =>
          { b with textNode := b.textNode ++ String.singleton c })) r) f
          (Nat.le_of_succ_le hf) (Nat.le_of_succ_le hn)
          (by simp [h1]) (by simp [h2]) (by simp [h3])
        rw [hg]
        -- the per-character side dispatches from the `preStep`ped state,
        -- which differs only in `currentChar`
        have hq : preStep (bmod p (fun b =>
            { b with textNode := b.textNode ++ String.singleton c })) r =
            { updatePositionF (bmod p (fun b =>
              { b with textNode := b.textNode ++ String.singleton c })) r with
              currentChar := String.singleton r } := by
          simp only [preStep]
          exact updatePositionF_cc _ r (String.singleton r)
        set q := updatePositionF (bmod p (fun b =>
          { b with textNode := b.textNode ++ String.singleton c })) r with hqdef
        have hguards : q.state = State.Text ∧ q.sawRoot = true ∧
            q.closedRoot = false := by
          constructor
          · simp [hqdef, h1]
          · constructor
            · simp [hqdef, h2]
            · simp [hqdef, h3]
        rw [show charFold (bmod p (fun b =>
            { b with textNode := b.textNode ++ String.singleton c }))
            (r :: rest) =
          (match dispatchOne { q with currentChar := String.singleton r } r
            with
           | (p2, none) => charFold p2 rest
           | (p2, some e) => (p2, some e)) from by
          simp only [charFold, stepOne, hq]]
        rw [dispatchText q r hguards.1 hguards.2.1 hguards.2.2,
          dispatchText { q with currentChar := String.singleton r } r
            (by simp [hguards.1]) (by simp [hguards.2.1])
            (by simp [hguards.2.2])]
        by_cases hr1 : r = '<'
        · rw [if_pos hr1, if_pos hr1]
          exact charFold_congr _ _ (by simp) rest
        · by_cases hr2 : r = '&'
          · rw [if_neg hr1, if_pos hr2, if_neg hr1, if_pos hr2]
            exact charFold_congr _ _ (by simp) rest
          · rw [if_neg hr1, if_neg hr2, if_neg hr1, if_neg hr2]
            exact charFold_congr _ _ (by simp) rest

/-- The character loop of `write` (with its bulk text scan) is the fold of the
per-character dispatch. -/
theorem runChunkAux_eq_charFold :
    ∀ (n fuel : Nat) (cs : List Char) (p : PState), cs.length ≤ fuel →
      cs.length ≤ n → runChunkAux fuel p cs = charFold p cs := by
  intro n
  induction n with
  | zero =>
    intro fuel cs p _ hn
    have : cs = [] := List.eq_nil_of_length_eq_zero (Nat.le_zero.mp hn)
    subst this
    rw [runChunkAux_nil]; rfl
  | succ n ihn =>
    intro fuel cs p hfuel hn
    match fuel, cs with
    | _, [] => rw [runChunkAux_nil]; rfl
    | 0, c :: rest => simp at hfuel
    | f + 1, c :: rest =>
      simp only [runChunkAux]
      split
      · rename_i hguard
        have hg := fastScan_charFold n ihn rest c (preStep p c) f ?_ ?_
          hguard.1 hguard.2.1 (by simpa using hguard.2.2)
        · rcases hfs : fastScan (preStep p c) c rest with ⟨p2, rest2⟩
          rw [hfs] at hg
          simp only at hg
          rw [hg]
          rfl
        · exact Nat.le_of_succ_le_succ hfuel
        · exact Nat.le_of_succ_le_succ hn
      · rcases hd : dispatchOne (preStep p c) c with ⟨p2, th⟩
        cases th
        · simp only []
          rw [ihn f rest p2 (Nat.le_of_succ_le_succ hfuel)
            (Nat.le_of_succ_le_succ hn)]
          simp only [charFold, stepOne, hd]
        · simp only [charFold, stepOne, hd]

/-- `runChunk` equals the per-character fold. -/
theorem runChunk_eq_charFold (p : PState) (cs : List Char) :
    runChunk p cs = charFold p cs :=
  runChunkAux_eq_charFold cs.length cs.length cs p (Nat.le_refl _)
    (Nat.le_refl _)

/-! ## Composition and invariants of the per-character fold -/

/-- Processing a concatenation is processing the pieces in order (a throw in
the first piece aborts). -/
theorem charFold_append (xs ys : List Char) :
    ∀ p, charFold p (xs ++ ys) =
      match charFold p xs with
      | (p1, none) => charFold p1 ys
      | (p1, some e) => (p1, some e) := by
  induction xs with
  | nil =>
    intro p
    simp only [List.nil_append, charFold]
    exact (charFold_cc ys p "").symm
  | cons x xs ih =>
    intro p
    simp only [List.cons_append, charFold]
    rcases hs : stepOne p x with ⟨p2, th⟩
    cases th
    · exact ih p2
    · rfl

theorem errM_stepOne (p : PState) (c : Char) : ErrM p (stepOne p c).1 := by
  refine ErrM.trans (ErrM.of_eq ?_) (errM_dispatchOne (preStep p c) c)
  simp [preStep]

theorem core_stepOne_off (p : PState) (c : Char)
    (h : p.opts.trackPosition = false) : core (stepOne p c).1 = core p := by
  unfold stepOne preStep
  rw [updatePositionF_off (by simpa using h)]
  rw [core_dispatchOne]
  rfl

/-- A latched error survives the whole fold. -/
theorem errM_charFold (cs : List Char) :
    ∀ p, ErrM p (charFold p cs).1 := by
  induction cs with
  | nil => intro p; exact ErrM.of_eq rfl
  | cons c rest ih =>
    intro p
    simp only [charFold]
    rcases hs : stepOne p c with ⟨p2, th⟩
    have h1 : ErrM p p2 := by
      have := errM_stepOne p c
      rw [hs] at this
      exact this
    cases th
    · exact h1.trans (ih p2)
    · exact h1

/-- With position tracking off, the fold keeps the configuration fields, the
position and the scheduled check offset. -/
theorem core_charFold_off (cs : List Char) :
    ∀ p, p.opts.trackPosition = false →
      core (charFold p cs).1 = core p := by
  induction cs with
  | nil => intro p _; rfl
  | cons c rest ih =>
    intro p h
    simp only [charFold]
    rcases hs : stepOne p c with ⟨p2, th⟩
    have h1 : core p2 = core p := by
      have := core_stepOne_off p c h
      rw [hs] at this
      exact this
    have h2 : p2.opts.trackPosition = false := by
      rw [core_opts h1]; exact h
    cases th
    · exact (ih p2 h2).trans h1
    · exact h1

/-- A chunk that does not throw leaves `currentChar` cleared. -/
theorem charFold_cc_final (cs : List Char) :
    ∀ p, (charFold p cs).2 = none → (charFold p cs).1.currentChar = "" := by
  induction cs with
  | nil => intro p _; rfl
  | cons c rest ih =>
    intro p h
    simp only [charFold] at h ⊢
    set r := stepOne p c with hs
    clear_value r
    rcases r with ⟨p2, th⟩
    cases th
    · exact ih p2 h
    · simp at h

/-- `write` on an error-free, open parser with position tracking off is
exactly the character loop: the post-write buffer check cannot trigger since
the offset never moves. -/
theorem writeFn_eq (p : PState) (cs : List Char) (herr : p.error = none)
    (hcl : p.closed = false) (hoff : p.opts.trackPosition = false)
    (hpos : (p.position : Int) < p.bufferCheckPosition) :
    writeFn p (some cs) = charFold p cs := by
  unfold writeFn
  rw [herr]
  simp only [hcl, if_false, Bool.false_eq_true]
  rw [runChunk_eq_charFold]
  rcases hcf : charFold p cs with ⟨q, th⟩
  have hq : core q = core p := by
    have := core_charFold_off cs p hoff
    rw [hcf] at this
    exact this
  cases th
  · simp only []
    rw [if_neg]
    rw [core_position hq, core_bcp hq]
    exact not_le.mpr hpos
  · rfl

/-- Writing the chunks one at a time equals processing their concatenation,
provided the concatenated run neither throws nor latches an error. -/
theorem runWrites_eq (chunks : List (List Char)) :
    ∀ p, p.opts.trackPosition = false → p.currentChar = "" →
      p.error = none → p.closed = false →
      (p.position : Int) < p.bufferCheckPosition →
      (charFold p chunks.join).2 = none →
      (charFold p chunks.join).1.error = none →
      runWrites p chunks = (charFold p chunks.join).1 := by
  induction chunks with
  | nil =>
    intro p _ hcc _ _ _ _ _
    show p = (charFold p []).1
    simp only [charFold]
    rw [← hcc]
  | cons c1 rest ih =>
    intro p hoff hcc herr hcl hpos hthrow herr2
    rw [show (c1 :: rest).join = c1 ++ rest.join from rfl] at hthrow herr2
    have happ := charFold_append c1 rest.join p
    have hq0 := core_charFold_off c1 p hoff
    have hcc0 := charFold_cc_final c1 p
    have hwr := writeFn_eq p c1 herr hcl hoff hpos
    show runWrites ((writeFn p (some c1)).1) rest =
      (charFold p ((c1 :: rest).join)).1
    rw [show (c1 :: rest).join = c1 ++ rest.join from rfl, hwr]
    set r := charFold p c1 with hc1
    clear_value r
    rcases r with ⟨q, th⟩
    cases th with
    | some e =>
      rw [happ] at hthrow
      simp at hthrow
    | none =>
      have h2 : charFold p (c1 ++ rest.join) = charFold q rest.join := happ
      have hq : core q = core p := hq0
      have hqcc : q.currentChar = "" := hcc0 rfl
      have hqerr : q.error = none :=
        ErrM.none_of (errM_charFold rest.join q) (by rw [← h2]; exact herr2)
      show runWrites q rest = (charFold p (c1 ++ rest.join)).1
      rw [ih q (by rw [core_opts hq]; exact hoff) hqcc hqerr
        (by rw [core_closed hq]; exact hcl)
        (by rw [core_position hq, core_bcp hq]; exact hpos)
        (by rw [← h2]; exact hthrow) (by rw [← h2]; exact herr2), h2]

/-! ## Claim C1: chunking invariance -/

set_option maxHeartbeats 1000000 in
/-- C1 (amended): for a parser with position tracking disabled (the default),
any partition of the input into `write` calls produces exactly the same event
trace as a single `write` of the whole input followed by the same `end()` —
provided the whole-input run neither latches an error nor throws.  (The
original unconditional claim is refuted by `c1_counterexample`: once an error
is latched, the next chunked `write` throws without consuming its chunk, so
text accumulated after the error point differs between the two runs.) -/
theorem c1_chunking_equivalence (strict : Bool) (opts : Options)
    (chunks : List (List Char)) (input : List Char)
    (hoff : opts.trackPosition = false)
    (hjoin : chunks.join = input)
    (hthrow : (charFold (initP strict opts) input).2 = none)
    (herr : (charFold (initP strict opts) input).1.error = none) :
    (runAll strict opts chunks).trace = (runAll strict opts [input]).trace
    := by
  subst hjoin
  unfold runAll
  rw [runWrites_eq chunks (initP strict opts) hoff rfl rfl rfl
    (by norm_num [initP, MAX_BUFFER_LENGTH]) hthrow herr]
  rw [runWrites_eq [chunks.join] (initP strict opts) hoff rfl rfl rfl
    (by norm_num [initP, MAX_BUFFER_LENGTH])
    (by simpa using hthrow) (by simpa using herr)]
  have h3 : [chunks.join].join = chunks.join := by simp
  rw [h3]

/-- Witness for C1 (amended) at a concrete chunked input. -/
theorem c1_chunking_equivalence_witness :
    (runAll true defaultOpts
        [("<a".toList), (">hi</a>".toList)]).trace =
      (runAll true defaultOpts [("<a>hi</a>".toList)]).trace :=
  c1_chunking_equivalence true defaultOpts
    [("<a".toList), (">hi</a>".toList)] ("<a>hi</a>".toList)
    rfl (by decide) (by decide) (by decide)

/-- C1 counterexample: the claim as stated (identical traces for every
partition, unconditionally) is false.  In strict mode the input `ab` latches
"Non-whitespace before first tag." at the first character; writing `a` and
`b` separately makes the second `write` throw without consuming `b`, so the
final text differs (`a` against `ab`). -/
theorem c1_counterexample :
    (runAll true defaultOpts [("a".toList), ("b".toList)]).trace ≠
      (runAll true defaultOpts [("ab".toList)]).trace := by
  decide

/-! ## Trace bookkeeping helpers -/

/-- `_closeText` either leaves the trace alone or appends one `text` event. -/
theorem trace_closeTextFn (p : PState) :
    (closeTextFn p).trace = p.trace ∨
      ∃ t, (closeTextFn p).trace = p.trace ++ [Event.text t] := by
  simp only [closeTextFn, emitE]
  split
  · right; exact ⟨_, rfl⟩
  · left; rfl

/-- `_emitError` appends some `text` and/or `error` events, never others. -/
theorem trace_emitErrorFn (p : PState) (m : String) :
    ∃ m2, (emitErrorFn p m).trace =
      (closeTextFn p).trace ++ [Event.error m2] := by
  simp only [emitErrorFn, emitE]
  exact ⟨_, rfl⟩

theorem count_end_closeTextFn (p : PState) :
    ((closeTextFn p).trace.count Event.end) = p.trace.count Event.end := by
  rcases trace_closeTextFn p with h | ⟨t, h⟩ <;> rw [h] <;> simp

theorem count_end_emitErrorFn (p : PState) (m : String) :
    ((emitErrorFn p m).trace.count Event.end) = p.trace.count Event.end := by
  rcases trace_emitErrorFn p m with ⟨m2, h⟩
  rw [h]
  simp [count_end_closeTextFn]

theorem count_end_strictFailFn (p : PState) (m : String) :
    ((strictFailFn p m).trace.count Event.end) = p.trace.count Event.end := by
  simp only [strictFailFn]
  split
  · exact count_end_emitErrorFn p m
  · rfl

theorem mem_ready_closeTextFn (p : PState) :
    Event.ready ∈ (closeTextFn p).trace ↔ Event.ready ∈ p.trace := by
  rcases trace_closeTextFn p with h | ⟨t, h⟩ <;> rw [h] <;> simp

theorem mem_ready_emitErrorFn (p : PState) (m : String) :
    Event.ready ∈ (emitErrorFn p m).trace ↔ Event.ready ∈ p.trace := by
  rcases trace_emitErrorFn p m with ⟨m2, h⟩
  rw [h]
  simp [mem_ready_closeTextFn]

theorem mem_ready_strictFailFn (p : PState) (m : String) :
    Event.ready ∈ (strictFailFn p m).trace ↔ Event.ready ∈ p.trace := by
  simp only [strictFailFn]
  split
  · exact mem_ready_emitErrorFn p m
  · rfl

/-! ## Claim C3: end() idempotence -/

/-- C3 (amended): every call of `end()` emits exactly one further `end`
event — including a call on a parser whose previous `end()` has already
completed.  `end()` is therefore NOT idempotent in the claimed sense: the
reset at the end of `end()` clears `closed`, and nothing in `end()` guards
against being called again, so a second call emits a second `end` (see
`c3_counterexample`). -/
theorem c3_end_always_emits (p : PState) :
    (endFn p).trace.count Event.end = p.trace.count Event.end + 1 := by
  simp only [endFn, emitE]
  split <;> split <;>
    simp [List.count_append, count_end_closeTextFn, count_end_strictFailFn,
      count_end_emitErrorFn]

/-- Witness for C3 (amended): a freshly constructed parser that is ended
twice has emitted two `end` events. -/
theorem c3_end_always_emits_witness :
    (endFn (endFn (initP false defaultOpts))).trace.count Event.end =
      (endFn (initP false defaultOpts)).trace.count Event.end + 1 :=
  c3_end_always_emits (endFn (initP false defaultOpts))

/-- C3 counterexample: calling `end()` twice on a fresh parser emits the
`end` event twice, refuting the claimed idempotence. -/
theorem c3_counterexample :
    (endFn (endFn (initP false defaultOpts))).trace =
      [Event.end, Event.end] := by
  decide

/-! ## Claim C9: the ready event -/

/-- C9: the reset at the completion of `end()` does NOT fire `ready`:
`end()` emits no `ready` event (it appears in the trace afterwards only if
it was already there), contradicting the documented behaviour that `ready`
fires when the parser is reset.  Indeed no code path of the parser ever
emits `ready`; this theorem pins it down at the reset point the claim names.
-/
theorem c9_no_ready_on_reset (p : PState) :
    Event.ready ∈ (endFn p).trace ↔ Event.ready ∈ p.trace := by
  simp only [endFn, emitE]
  split <;> split <;>
    simp [mem_ready_closeTextFn, mem_ready_strictFailFn,
      mem_ready_emitErrorFn]

/-- Witness for C9: a full parse of `<a/>` ends with no `ready` in the
trace. -/
theorem c9_no_ready_on_reset_witness :
    Event.ready ∈ (endFn (runWrites (initP true defaultOpts)
        [("<a/>".toList)])).trace ↔
      Event.ready ∈ (runWrites (initP true defaultOpts)
        [("<a/>".toList)]).trace :=
  c9_no_ready_on_reset (runWrites (initP true defaultOpts) [("<a/>".toList)])

/-! ## Claim C6: the error latch and resume() -/

/-- C6: with an error latched, `write` (with any argument) throws exactly the
latched error and leaves the state untouched — no chunk consumption, no
events; `resume()` clears the latch; and a `write` after `resume()` runs the
character loop again (stated for an open parser with position tracking off,
where the post-write buffer check is a no-op). -/
theorem c6_error_latch (p : PState) (e : String) (h : p.error = some e) :
    (∀ chunk, writeFn p chunk = (p, some e)) ∧
    (resumeFn p).error = none ∧
    (∀ cs, p.closed = false → p.opts.trackPosition = false →
      (p.position : Int) < p.bufferCheckPosition →
      writeFn (resumeFn p) (some cs) = charFold (resumeFn p) cs) := by
  refine ⟨fun chunk => ?_, rfl, fun cs hcl hoff hpos => ?_⟩
  · unfold writeFn
    rw [h]
  · exact writeFn_eq (resumeFn p) cs rfl hcl hoff hpos

/-- Witness for C6: a strict parser that latched
"Non-whitespace before first tag." on input `a`; the next write throws that
error, resume clears it, and the resumed write runs. -/
theorem c6_error_latch_witness :
    (writeFn (writeFn (initP true defaultOpts) (some ['a'])).1
        (some ['b']) =
      ((writeFn (initP true defaultOpts) (some ['a'])).1,
        some "Non-whitespace before first tag.")) ∧
    (resumeFn (writeFn (initP true defaultOpts) (some ['a'])).1).error =
      none ∧
    writeFn (resumeFn (writeFn (initP true defaultOpts) (some ['a'])).1)
        (some ['b']) =
      charFold
        (resumeFn (writeFn (initP true defaultOpts) (some ['a'])).1)
        ['b'] := by
  have H := c6_error_latch (writeFn (initP true defaultOpts) (some ['a'])).1
    "Non-whitespace before first tag." (by decide)
  exact ⟨H.1 (some ['b']), H.2.1, H.2.2 ['b'] (by decide) (by decide)
    (by decide)⟩

/-! ## Further projection lemmas for the error helpers -/

@[simp] theorem closeTextFn_buffer (p : PState) :
    (closeTextFn p).buffer = { p.buffer with textNode := "" } := by
  simp only [closeTextFn]; split <;> rfl

@[simp] theorem emitErrorFn_buffer (p : PState) (m : String) :
    (emitErrorFn p m).buffer = { p.buffer with textNode := "" } := by
  simp only [emitErrorFn, emitE]
  simp

@[simp] theorem emitErrorFn_state (p : PState) (m : String) :
    (emitErrorFn p m).state = p.state := by
  simp only [emitErrorFn, emitE]; simp
@[simp] theorem emitErrorFn_sawRoot (p : PState) (m : String) :
    (emitErrorFn p m).sawRoot = p.sawRoot := by
  simp only [emitErrorFn, emitE]; simp
@[simp] theorem emitErrorFn_closedRoot (p : PState) (m : String) :
    (emitErrorFn p m).closedRoot = p.closedRoot := by
  simp only [emitErrorFn, emitE]; simp
@[simp] theorem emitErrorFn_tags (p : PState) (m : String) :
    (emitErrorFn p m).tags = p.tags := by
  simp only [emitErrorFn, emitE]; simp
@[simp] theorem emitErrorFn_tag (p : PState) (m : String) :
    (emitErrorFn p m).tag = p.tag := by
  simp only [emitErrorFn, emitE]; simp
@[simp] theorem emitErrorFn_attribList (p : PState) (m : String) :
    (emitErrorFn p m).attribList = p.attribList := by
  simp only [emitErrorFn, emitE]; simp
@[simp] theorem emitErrorFn_currentChar (p : PState) (m : String) :
    (emitErrorFn p m).currentChar = p.currentChar := by
  simp only [emitErrorFn, emitE]; simp
@[simp] theorem emitErrorFn_previousChar (p : PState) (m : String) :
    (emitErrorFn p m).previousChar = p.previousChar := by
  simp only [emitErrorFn, emitE]; simp

@[simp] theorem strictFailFn_state (p : PState) (m : String) :
    (strictFailFn p m).state = p.state := by
  simp only [strictFailFn]; split <;> simp
@[simp] theorem strictFailFn_sawRoot (p : PState) (m : String) :
    (strictFailFn p m).sawRoot = p.sawRoot := by
  simp only [strictFailFn]; split <;> simp
@[simp] theorem strictFailFn_closedRoot (p : PState) (m : String) :
    (strictFailFn p m).closedRoot = p.closedRoot := by
  simp only [strictFailFn]; split <;> simp
@[simp] theorem strictFailFn_tags (p : PState) (m : String) :
    (strictFailFn p m).tags = p.tags := by
  simp only [strictFailFn]; split <;> simp
@[simp] theorem strictFailFn_tag (p : PState) (m : String) :
    (strictFailFn p m).tag = p.tag := by
  simp only [strictFailFn]; split <;> simp
@[simp] theorem strictFailFn_attribList (p : PState) (m : String) :
    (strictFailFn p m).attribList = p.attribList := by
  simp only [strictFailFn]; split <;> simp
@[simp] theorem strictFailFn_currentChar (p : PState) (m : String) :
    (strictFailFn p m).currentChar = p.currentChar := by
  simp only [strictFailFn]; split <;> simp
@[simp] theorem strictFailFn_previousChar (p : PState) (m : String) :
    (strictFailFn p m).previousChar = p.previousChar := by
  simp only [strictFailFn]; split <;> simp
@[simp] theorem strictFailFn_attribName (p : PState) (m : String) :
    (strictFailFn p m).buffer.attribName = p.buffer.attribName := by
  simp only [strictFailFn]; split <;> simp
@[simp] theorem strictFailFn_attribValue (p : PState) (m : String) :
    (strictFailFn p m).buffer.attribValue = p.buffer.attribValue := by
  simp only [strictFailFn]; split <;> simp
@[simp] theorem strictFailFn_tagName (p : PState) (m : String) :
    (strictFailFn p m).buffer.tagName = p.buffer.tagName := by
  simp only [strictFailFn]; split <;> simp
@[simp] theorem flushText_attribName (p : PState) :
    (flushText p).buffer.attribName = p.buffer.attribName := by
  simp only [flushText]; split <;> simp
@[simp] theorem flushText_attribValue (p : PState) :
    (flushText p).buffer.attribValue = p.buffer.attribValue := by
  simp only [flushText]; split <;> simp

/-! ## Claim C7: duplicate attributes -/

/-- The case-normalisation `_attrib` applies to the buffered attribute name
before the duplicate check. -/
def attribNameNorm (p : PState) : String :=
  if ¬p.strict then
    if p.opts.lowercase then toLowerStr p.buffer.attribName
    else toUpperStr p.buffer.attribName
  else p.buffer.attribName

/-- C7: an attribute commit whose normalised name is already staged or
already a key of the tag's attributes is silently discarded: the whole state
is unchanged except that the attribName and attribValue buffers are
cleared — so no event, no stored-value change, no staging.  The second
conjunct is the claim's concrete case: `<a foo="1" foo="2"/>` opens a tag
whose `foo` is `"1"`. -/
theorem c7_duplicate_attribute (p : PState) (tag : Tag)
    (hptag : p.tag = some tag)
    (hdup : containsAttrb p.attribList (attribNameNorm p) = true ∨
      tag.hasAttr (attribNameNorm p) = true) :
    attribFn p =
      { p with buffer :=
          { p.buffer with attribName := "", attribValue := "" } } ∧
    (∃ t, Event.opentag t ∈
        (runAll true defaultOpts
          [("<a foo=\"1\" foo=\"2\"/>".toList)]).trace ∧
      t.attributes = [("foo", AttrVal.plain "1")]) := by
  constructor
  · simp only [attribFn]
    split
    · rename_i heq
      have h0 : p.tag = none := heq
      rw [hptag] at h0
      cases h0
    · rename_i t2 heq
      have h0 : p.tag = some t2 := heq
      rw [hptag] at h0
      injection h0 with h0
      subst h0
      rw [if_pos]
      rcases hdup with h | h
      · exact Or.inl h
      · exact Or.inr h
  · refine ⟨{ name := "a", attributes := [("foo", AttrVal.plain "1")], isSelfClosing := true, pfx := none, loc := none, uri := none, ns := none }, by decide, by decide⟩

/-- A concrete parser state about to commit a duplicate attribute. -/
def c7Tag : Tag :=
  { name := "a", attributes := [], isSelfClosing := false, pfx := none,
    loc := none, uri := none, ns := none }

def c7P : PState :=
  { initP true defaultOpts with
    tag := some c7Tag,
    attribList := [("foo", "1")],
    buffer := { emptyBuffer with attribName := "foo", attribValue := "2" } }

/-- Witness for C7 at a concrete duplicate commit. -/
theorem c7_duplicate_attribute_witness :
    attribFn c7P =
      { c7P with buffer :=
          { c7P.buffer with attribName := "", attribValue := "" } } ∧
    (∃ t, Event.opentag t ∈
        (runAll true defaultOpts
          [("<a foo=\"1\" foo=\"2\"/>".toList)]).trace ∧
      t.attributes = [("foo", AttrVal.plain "1")]) :=
  c7_duplicate_attribute c7P c7Tag rfl (Or.inl (by decide))

/-! ## Claim C10: the AttribNameSawWhite shortcut -/

set_option maxHeartbeats 2000000 in
/-- C10: in state `AttribNameSawWhite`, EVERY next character that is neither
`=` nor whitespace makes the parser first store the attribute as a PLAIN
attribute with value `""` directly in the tag's attribute map — under the
raw buffered name, overwriting any existing entry, regardless of the `xmlns`
option — and emit a two-field `attribute` event with value `""` immediately,
leaving the staging list untouched; only then does it branch on the
character: `>` opens the tag, a name-start character begins the next
attribute name, anything else strict-fails "Invalid attribute name".  The
store-and-emit common prefix bypasses the staging list, the duplicate-name
check and the namespace-binding handling of `_attrib`. -/
theorem c10_attrib_saw_white (p : PState) (tag : Tag) (c : Char)
    (hst : p.state = State.AttribNameSawWhite) (htag : p.tag = some tag)
    (hc1 : c ≠ '=') (hc2 : isWhitespace c = false) :
    dispatchOne p c =
      (let t2 : Tag := { tag with attributes := attrSet tag.attributes p.buffer.attribName (AttrVal.plain "") }
       let pf : PState := strictFailFn p "Attribute without value"
       let pm : PState := { pf with tag := some t2, buffer := { pf.buffer with attribValue := "" } }
       let pe : PState := emitE (flushText pm) (Event.attributePlain p.buffer.attribName "")
       let pb : PState := { pe with buffer := { pe.buffer with attribName := "" } }
       if c = '>' then (openTagFn pb false, none)
       else if isNameStart c then ({ { pb with buffer := { pb.buffer with attribName := String.singleton c } } with state := State.AttribName }, none)
       else ({ strictFailFn pb "Invalid attribute name" with state := State.Attrib }, none)) := by
  simp only [dispatchOne]
  rw [hst]
  simp only [if_neg hc1, hc2, Bool.false_eq_true, if_false]
  rw [strictFailFn_tag, htag]
  simp only [bmod]
  simp [emitE, strictFailFn_attribName]

/-- A concrete `AttribNameSawWhite` situation in namespace mode. -/
def c10Tag : Tag :=
  { name := "A", attributes := [], isSelfClosing := false, pfx := none,
    loc := none, uri := none,
    ns := some { flat := rootNS, own := rootNS, shared := true } }

def c10P : PState :=
  { initP false { defaultOpts with xmlns := true } with
    state := State.AttribNameSawWhite,
    tag := some c10Tag,
    buffer := { emptyBuffer with attribName := "foo" } }

/-- Witness for C10: the shortcut at a concrete state with `xmlns` on, both
for a following name-start character and for `>`. -/
theorem c10_attrib_saw_white_witness :
    (dispatchOne c10P 'b' =
      (let t2 : Tag := { c10Tag with attributes := attrSet c10Tag.attributes c10P.buffer.attribName (AttrVal.plain "") }
       let pf : PState := strictFailFn c10P "Attribute without value"
       let pm : PState := { pf with tag := some t2, buffer := { pf.buffer with attribValue := "" } }
       let pe : PState := emitE (flushText pm) (Event.attributePlain c10P.buffer.attribName "")
       let pb : PState := { pe with buffer := { pe.buffer with attribName := "" } }
       if 'b' = '>' then (openTagFn pb false, none)
       else if isNameStart 'b' then ({ { pb with buffer := { pb.buffer with attribName := String.singleton 'b' } } with state := State.AttribName }, none)
       else ({ strictFailFn pb "Invalid attribute name" with state := State.Attrib }, none))) ∧
    (dispatchOne c10P '>' =
      (let t2 : Tag := { c10Tag with attributes := attrSet c10Tag.attributes c10P.buffer.attribName (AttrVal.plain "") }
       let pf : PState := strictFailFn c10P "Attribute without value"
       let pm : PState := { pf with tag := some t2, buffer := { pf.buffer with attribValue := "" } }
       let pe : PState := emitE (flushText pm) (Event.attributePlain c10P.buffer.attribName "")
       let pb : PState := { pe with buffer := { pe.buffer with attribName := "" } }
       if '>' = '>' then (openTagFn pb false, none)
       else if isNameStart '>' then ({ { pb with buffer := { pb.buffer with attribName := String.singleton '>' } } with state := State.AttribName }, none)
       else ({ strictFailFn pb "Invalid attribute name" with state := State.Attrib }, none))) :=
  ⟨c10_attrib_saw_white c10P c10Tag 'b' rfl rfl (by decide) (by decide),
   c10_attrib_saw_white c10P c10Tag '>' rfl rfl (by decide) (by decide)⟩

/-! ## Claim C8: xmlns attribute bindings -/

set_option maxHeartbeats 1000000 in
/-- C8: in namespace mode, a committed attribute whose qualified prefix is
`xmlns` is a namespace binding.  Binding local name `xml` to anything but the
XML namespace URI, or local name `xmlns` to anything but the XMLNS namespace
URI, is a strict-fail and the tag's namespace map is left untouched.
Otherwise the binding `loc → value` is inserted: into a fresh copy-on-write
clone (own bindings = just the new one, lookup chain = parent chain plus the
binding) when the tag's map is still identical to the parent's, else in place
into the tag's own map.  In all cases the pair is staged (the event is
deferred to `_openTag`) and both attribute buffers are cleared. -/
theorem c8_xmlns_binding (p : PState) (tag : Tag) (loc : String)
    (hx : p.opts.xmlns = true) (htag : p.tag = some tag)
    (hd1 : containsAttrb p.attribList (attribNameNorm p) = false)
    (hd2 : tag.hasAttr (attribNameNorm p) = false)
    (hq : qnameFn (attribNameNorm p) true = ("xmlns", loc)) :
    ((loc = "xml" ∧ p.buffer.attribValue ≠ XML_NAMESPACE) →
      (attribFn p).tag = some tag ∧
      (p.strict = true → (attribFn p).error.isSome = true)) ∧
    (¬(loc = "xml" ∧ p.buffer.attribValue ≠ XML_NAMESPACE) →
      (loc = "xmlns" ∧ p.buffer.attribValue ≠ XMLNS_NAMESPACE) →
      (attribFn p).tag = some tag ∧
      (p.strict = true → (attribFn p).error.isSome = true)) ∧
    (¬(loc = "xml" ∧ p.buffer.attribValue ≠ XML_NAMESPACE) →
      ¬(loc = "xmlns" ∧ p.buffer.attribValue ≠ XMLNS_NAMESPACE) →
      ∀ nsi, tag.ns = some nsi →
        (attribFn p).error = p.error ∧
        (attribFn p).tag = some { tag with ns := some (if nsi.shared then { flat := assocSet (parentNsFlat p) loc p.buffer.attribValue, own := [(loc, p.buffer.attribValue)], shared := false } else { flat := assocSet nsi.flat loc p.buffer.attribValue, own := assocSet nsi.own loc p.buffer.attribValue, shared := false }) }) ∧
    (attribFn p).attribList =
      p.attribList ++ [(attribNameNorm p, p.buffer.attribValue)] ∧
    (attribFn p).buffer.attribName = "" ∧
    (attribFn p).buffer.attribValue = "" := by
  and_intros
  · rintro ⟨hl, hv⟩
    constructor
    · simp only [attribFn]
      simp only [← attribNameNorm.eq_def]
      simp [htag, hd1, hd2, hq, hx, hl, hv]
    · intro hs
      simp only [attribFn]
      simp only [← attribNameNorm.eq_def]
      simp [htag, hd1, hd2, hq, hx, hl, hv, strictFailFn, hs]
  · rintro hg1 ⟨hl, hv⟩
    constructor
    · simp only [attribFn]
      simp only [← attribNameNorm.eq_def]
      simp [htag, hd1, hd2, hq, hx, hg1, hl, hv]
    · intro hs
      simp only [attribFn]
      simp only [← attribNameNorm.eq_def]
      simp [htag, hd1, hd2, hq, hx, hg1, hl, hv, strictFailFn, hs]
  · intro hg1 hg2 nsi hnsi
    constructor
    · simp only [attribFn]
      simp only [← attribNameNorm.eq_def]
      simp [htag, hd1, hd2, hq, hx, hg1, hg2, hnsi]
    · simp only [attribFn]
      simp only [← attribNameNorm.eq_def]
      simp [htag, hd1, hd2, hq, hx, hg1, hg2, hnsi, parentNsFlat]
  · simp only [attribFn]
    simp only [← attribNameNorm.eq_def]
    simp [htag, hd1, hd2, hq, hx]
    split
    · simp
    · split
      · simp
      · split <;> simp
  · simp only [attribFn]
    simp only [← attribNameNorm.eq_def]
    simp [htag, hd1, hd2, hq, hx]
  · simp only [attribFn]
    simp only [← attribNameNorm.eq_def]
    simp [htag, hd1, hd2, hq, hx]

/-- A concrete namespace-mode binding commit: `xmlns:foo="http://x"` on a
tag whose map is still shared with the parent's. -/
def c8Nsi : NsInfo := { flat := rootNS, own := rootNS, shared := true }

def c8Tag : Tag :=
  { name := "a", attributes := [], isSelfClosing := false, pfx := none,
    loc := none, uri := none, ns := some c8Nsi }

def c8P : PState :=
  { initP true { defaultOpts with xmlns := true } with
    tag := some c8Tag,
    buffer := { emptyBuffer with attribName := "xmlns:foo", attribValue := "http://x" } }

/-- Witness for C8: the binding is inserted into a copy-on-write clone and
the pair is staged, with the buffers cleared. -/
theorem c8_xmlns_binding_witness :
    ((attribFn c8P).error = c8P.error ∧
      (attribFn c8P).tag = some { c8Tag with ns := some (if c8Nsi.shared then { flat := assocSet (parentNsFlat c8P) "foo" c8P.buffer.attribValue, own := [("foo", c8P.buffer.attribValue)], shared := false } else { flat := assocSet c8Nsi.flat "foo" c8P.buffer.attribValue, own := assocSet c8Nsi.own "foo" c8P.buffer.attribValue, shared := false }) }) ∧
    (attribFn c8P).attribList =
      c8P.attribList ++ [(attribNameNorm c8P, c8P.buffer.attribValue)] ∧
    (attribFn c8P).buffer.attribName = "" ∧
    (attribFn c8P).buffer.attribValue = "" := by
  have H := c8_xmlns_binding c8P c8Tag "foo" rfl rfl (by decide) (by decide)
    (by decide)
  exact ⟨H.2.2.1 (by decide) (by decide) c8Nsi rfl, H.2.2.2⟩

/-! ## Claim C4: entity resolution -/

set_option maxHeartbeats 4000000 in
/-- C4: `_parseEntity` resolves a buffered entity name by cascade: a raw hit
in the chosen table wins; else a lowercased hit; else a name beginning `#`
is parsed as hexadecimal (after `x`) or decimal, the parsed number is
round-tripped to its canonical leading-zero-stripped string in the same
radix, a mismatch being a strict-fail yielding the literal `&name;` and a
match yielding the code point (`String.fromCodePoint`, which throws a
RangeError beyond 0x10FFFF — the `Except.error` case); any other name
strict-fails and yields `&name;` verbatim.  The last conjunct is the claim's
concrete case: `<a>&amp;&#65;&#x42;</a>` in strict mode yields the single
text event `&AB`. -/
theorem c4_entity_resolution (p : PState) :
    (∀ v, truthyFind (entitiesFor p.opts) p.buffer.entity = some v →
      parseEntityFn p = (p, Except.ok v)) ∧
    (∀ v, truthyFind (entitiesFor p.opts) p.buffer.entity = none →
      truthyFind (entitiesFor p.opts) (toLowerStr p.buffer.entity) = some v →
      parseEntityFn p = (p, Except.ok v)) ∧
    (truthyFind (entitiesFor p.opts) p.buffer.entity = none →
      truthyFind (entitiesFor p.opts) (toLowerStr p.buffer.entity) = none →
      (toLowerStr p.buffer.entity).toList.head? ≠ some '#' →
      parseEntityFn p = (strictFailFn p "Invalid character entity",
        Except.ok ("&" ++ p.buffer.entity ++ ";"))) ∧
    (∀ ds n, truthyFind (entitiesFor p.opts) p.buffer.entity = none →
      truthyFind (entitiesFor p.opts) (toLowerStr p.buffer.entity) = none →
      (toLowerStr p.buffer.entity).toList = '#' :: 'x' :: ds →
      jsParseInt (String.mk ds) 16 = some n →
      parseEntityFn p =
        (if toLowerStr (jsNumToString n 16) ≠ stripLeadingZeros (String.mk ds)
         then (strictFailFn p "Invalid character entity",
           Except.ok ("&" ++ p.buffer.entity ++ ";"))
         else (p, jsFromCodePoint n))) ∧
    (∀ ds n, truthyFind (entitiesFor p.opts) p.buffer.entity = none →
      truthyFind (entitiesFor p.opts) (toLowerStr p.buffer.entity) = none →
      (toLowerStr p.buffer.entity).toList = '#' :: ds →
      ds.head? ≠ some 'x' →
      jsParseInt (String.mk ds) 10 = some n →
      parseEntityFn p =
        (if toLowerStr (jsNumToString n 10) ≠ stripLeadingZeros (String.mk ds)
         then (strictFailFn p "Invalid character entity",
           Except.ok ("&" ++ p.buffer.entity ++ ";"))
         else (p, jsFromCodePoint n))) ∧
    (runAll true defaultOpts [("<a>&amp;&#65;&#x42;</a>".toList)]).trace =
      [Event.opentagstart { name := "a", attributes := [], isSelfClosing := false, pfx := none, loc := none, uri := none, ns := none },
       Event.opentag { name := "a", attributes := [], isSelfClosing := false, pfx := none, loc := none, uri := none, ns := none },
       Event.text "&AB", Event.closetag "a", Event.end] := by
  and_intros
  · intro v h
    simp [parseEntityFn, h]
  · intro v h1 h2
    simp [parseEntityFn, h1, h2]
  · intro h1 h2 h3
    simp only [String.toList] at h3
    have h3f : ((toLowerStr p.buffer.entity).data.head? = some '#') = False :=
      by simp only [eq_iff_iff, iff_false]; exact h3
    simp [parseEntityFn, h1, h2, h3f]
  · intro ds n h1 h2 hlist hparse
    simp only [String.toList] at hlist
    simp only [parseEntityFn]
    simp [h1, h2, hlist, hparse]
    all_goals split <;> simp_all
  · intro ds n h1 h2 hlist hx hparse
    simp only [String.toList] at hlist
    have hxf : (ds.head? = some 'x') = False :=
      by simp only [eq_iff_iff, iff_false]; exact hx
    simp only [parseEntityFn]
    simp [h1, h2, hlist, hxf, hparse]
    all_goals split <;> simp_all
  · decide

/-- A parser state with the hexadecimal entity `#x42` buffered. -/
def c4P : PState :=
  { initP true defaultOpts with
    buffer := { emptyBuffer with entity := "#x42" } }

/-- Witness for C4: the hexadecimal branch at a concrete state (`&#x42;`
resolves to the code point, here `B`). -/
theorem c4_entity_resolution_witness :
    parseEntityFn c4P =
      (if toLowerStr (jsNumToString 66 16) ≠
          stripLeadingZeros (String.mk ['4', '2'])
       then (strictFailFn c4P "Invalid character entity",
         Except.ok ("&" ++ c4P.buffer.entity ++ ";"))
       else (c4P, jsFromCodePoint 66)) :=
  (c4_entity_resolution c4P).2.2.2.1 ['4', '2'] 66 (by decide) (by decide)
    (by decide) (by decide)

/-! ## Claim C2: the buffer watchdog -/

/-- One `Text`-state step on a plain character with position tracking off:
only `textNode` and `currentChar` change. -/
theorem stepOne_text_plain (p : PState)
    (hst : p.state = State.Text) (hsaw : p.sawRoot = true)
    (hcl : p.closedRoot = false) (hoff : p.opts.trackPosition = false) :
    stepOne p 'a' =
      ({ p with currentChar := String.singleton 'a', buffer := { p.buffer with textNode := p.buffer.textNode ++ String.singleton 'a' } }, none) := by
  show dispatchOne (preStep p 'a') 'a' = _
  unfold preStep
  rw [updatePositionF_off (by exact hoff)]
  simp only [dispatchOne]
  rw [show ({ p with currentChar := String.singleton 'a' } : PState).state =
    State.Text from hst]
  simp [hsaw, hcl, bmod]

/-- With position tracking off a run of plain text characters only grows
`textNode`; nothing is flushed, no error is latched, no event is emitted. -/
theorem charFold_text_run (n : Nat) :
    ∀ p, p.state = State.Text → p.sawRoot = true → p.closedRoot = false →
      p.opts.trackPosition = false →
      charFold p (List.replicate n 'a') =
        ({ p with currentChar := "", buffer := { p.buffer with textNode := p.buffer.textNode ++ String.mk (List.replicate n 'a') } }, none) := by
  induction n with
  | zero =>
    intro p _ _ _ _
    show ({ p with currentChar := "" }, none) = _
    have hb : p.buffer.textNode ++ String.mk (List.replicate 0 'a') =
        p.buffer.textNode := by
      show p.buffer.textNode ++ "" = p.buffer.textNode
      exact String.append_empty _
    rw [hb]
  | succ n ih =>
    intro p hst hsaw hcl hoff
    rw [List.replicate_succ]
    show (match stepOne p 'a' with
      | (p2, none) => charFold p2 (List.replicate n 'a')
      | (p2, some e) => (p2, some e)) = _
    rw [stepOne_text_plain p hst hsaw hcl hoff]
    show charFold { p with currentChar := String.singleton 'a', buffer := { p.buffer with textNode := p.buffer.textNode ++ String.singleton 'a' } } (List.replicate n 'a') = _
    rw [ih _ (by exact hst) (by exact hsaw) (by exact hcl) (by exact hoff)]
    have hs : (p.buffer.textNode ++ String.singleton 'a') ++
        String.mk (List.replicate n 'a') =
        p.buffer.textNode ++ String.mk ('a' :: List.replicate n 'a') := by
      rw [String.append_assoc]
      rfl
    simp only []
    rw [hs]

/-- C2 counterexample: with the default options (`trackPosition` off) the
offset never advances, so `write` never reaches its scheduled buffer check:
after `<a>` followed by 65537 plain characters in one `write`, `textNode`
holds 65537 > MAX_BUFFER_LENGTH characters, yet no error is latched and not
a single event (in particular no auto-flush `text`) has been emitted since
the open tag. -/
theorem c2_counterexample :
    (runWrites (initP true defaultOpts)
        [("<a>".toList), (List.replicate 65537 'a')]).buffer.textNode.length >
      MAX_BUFFER_LENGTH ∧
    (runWrites (initP true defaultOpts)
        [("<a>".toList), (List.replicate 65537 'a')]).error = none ∧
    (runWrites (initP true defaultOpts)
        [("<a>".toList), (List.replicate 65537 'a')]).trace =
      (writeFn (initP true defaultOpts) (some ("<a>".toList))).1.trace := by
  have h0 : runWrites (initP true defaultOpts)
      [("<a>".toList), (List.replicate 65537 'a')] =
      (writeFn (writeFn (initP true defaultOpts) (some ("<a>".toList))).1
        (some (List.replicate 65537 'a'))).1 := by
    rw [runWrites, List.foldl_cons, List.foldl_cons, List.foldl_nil]
  rw [h0]
  rw [writeFn_eq (writeFn (initP true defaultOpts) (some ("<a>".toList))).1
    (List.replicate 65537 'a') (by decide) (by decide) (by decide) (by decide)]
  rw [charFold_text_run 65537
    (writeFn (initP true defaultOpts) (some ("<a>".toList))).1
    (by decide) (by decide) (by decide) (by decide)]
  refine ⟨?_, ?_, ?_⟩
  · show ((writeFn (initP true defaultOpts)
        (some ("<a>".toList))).1.buffer.textNode ++
        String.mk (List.replicate 65537 'a')).length > MAX_BUFFER_LENGTH
    rw [String.length_append]
    have h1 : (writeFn (initP true defaultOpts)
        (some ("<a>".toList))).1.buffer.textNode.length = 0 := by decide
    rw [h1]
    have hmk : ∀ (l : List Char), (String.mk l).length = l.length :=
      fun l => rfl
    rw [hmk, List.length_replicate]
    decide
  · show (writeFn (initP true defaultOpts)
        (some ("<a>".toList))).1.error = none
    decide
  · rfl

@[simp] theorem flushText_cdata (p : PState) :
    (flushText p).buffer.cdata = p.buffer.cdata := by
  simp only [flushText]; split <;> simp

@[simp] theorem flushText_script (p : PState) :
    (flushText p).buffer.script = p.buffer.script := by
  simp only [flushText]; split <;> simp

/-- C2 (amended): what the watchdog actually enforces.  The per-buffer
checks themselves behave as claimed when they run — each of the three
flushable buffers (`textNode`, `cdata`, `script`) over the limit is flushed
as its event, any other buffer (`_checkFatalBuffer`) over the limit latches
"Max buffer length exceeded" — and `write` runs `_checkBufferLength` exactly
when the post-loop offset has reached the scheduled check offset.  But the
offset only advances when the `trackPosition` option is on; under the
default options the check never runs and a buffer grows without bound (see
`c2_counterexample`). -/
theorem c2_buffer_watchdog (p : PState) (m : Nat) (s : String) :
    (p.buffer.textNode.length > m →
      checkTextNodeBuf p m = (closeTextFn p, p.buffer.textNode.length)) ∧
    (p.buffer.textNode.length ≤ m →
      checkTextNodeBuf p m = (p, p.buffer.textNode.length)) ∧
    (s.length > m →
      checkFatalBuf p s m =
        (emitErrorFn p ("Max buffer length exceeded: " ++ s), s.length)) ∧
    (s.length ≤ m →
      checkFatalBuf p s m = (p, s.length)) ∧
    (∀ cs q, p.error = none → p.closed = false →
      runChunk p cs = (q, none) →
      (q.position : Int) ≥ q.bufferCheckPosition →
      writeFn p (some cs) = (checkBufferLengthFn q, none)) ∧
    (∀ cs q, p.error = none → p.closed = false →
      runChunk p cs = (q, none) →
      ¬((q.position : Int) ≥ q.bufferCheckPosition) →
      writeFn p (some cs) = (q, none)) ∧
    (p.buffer.cdata.length > m →
      checkCdataBuf p m =
        ((let q := emitE (flushText p) (Event.cdata p.buffer.cdata)
          { q with buffer := { q.buffer with cdata := "" } }),
         p.buffer.cdata.length)) ∧
    (p.buffer.cdata.length ≤ m →
      checkCdataBuf p m = (p, p.buffer.cdata.length)) ∧
    (p.buffer.script.length > m →
      checkScriptBuf p m =
        ((let q := emitE (flushText p) (Event.script p.buffer.script)
          { q with buffer := { q.buffer with script := "" } }),
         p.buffer.script.length)) ∧
    (p.buffer.script.length ≤ m →
      checkScriptBuf p m = (p, p.buffer.script.length)) := by
  and_intros
  · intro h
    simp [checkTextNodeBuf, h]
  · intro h
    simp [checkTextNodeBuf, Nat.not_lt.mpr h]
  · intro h
    simp [checkFatalBuf, h]
  · intro h
    simp [checkFatalBuf, Nat.not_lt.mpr h]
  · intro cs q herr hcl hrun hge
    unfold writeFn
    rw [herr]
    simp only [hcl, Bool.false_eq_true, if_false]
    rw [hrun]
    simp only [if_pos hge]
  · intro cs q herr hcl hrun hlt
    unfold writeFn
    rw [herr]
    simp only [hcl, Bool.false_eq_true, if_false]
    rw [hrun]
    simp only [if_neg hlt]
  · intro h
    simp only [checkCdataBuf]
    rw [if_pos h]
    simp [emitE]
  · intro h
    simp [checkCdataBuf, Nat.not_lt.mpr h]
  · intro h
    simp only [checkScriptBuf]
    rw [if_pos h]
    simp [emitE]
  · intro h
    simp [checkScriptBuf, Nat.not_lt.mpr h]

/-- Concrete buffers for the C2 witness: every flushable buffer and a fatal
buffer over a limit of 2. -/
def c2W : PState :=
  { initP true defaultOpts with
    buffer := { emptyBuffer with textNode := "aaa", cdata := "ccc", script := "sss" } }

/-- Witness for C2 (amended) at concrete buffers. -/
theorem c2_buffer_watchdog_witness :
    (checkTextNodeBuf c2W 2 = (closeTextFn c2W, 3)) ∧
    (checkFatalBuf c2W "xyz" 2 =
      (emitErrorFn c2W ("Max buffer length exceeded: " ++ "xyz"), 3)) ∧
    (checkCdataBuf c2W 2 =
      ((let q := emitE (flushText c2W) (Event.cdata c2W.buffer.cdata)
        { q with buffer := { q.buffer with cdata := "" } }), 3)) ∧
    (checkScriptBuf c2W 2 =
      ((let q := emitE (flushText c2W) (Event.script c2W.buffer.script)
        { q with buffer := { q.buffer with script := "" } }), 3)) := by
  have H := c2_buffer_watchdog c2W 2 "xyz"
  obtain ⟨h1, _, h3, _, _, _, h7, _, h9, _⟩ := H
  exact ⟨h1 (by decide), h3 (by decide), h7 (by decide), h9 (by decide)⟩

/-! ## Claim C5: closing tags -/

/-- Observation: the payload of a `closetag` event. -/
def closeTagName? : Event → Option String
  | Event.closetag n => some n
  | _ => none

/-- Observation: the payload of a `closenamespace` event. -/
def closeNsBinding? : Event → Option (String × String)
  | Event.closenamespace a b => some (a, b)
  | _ => none

theorem fm_tag_closeText (p : PState) :
    (closeTextFn p).trace.filterMap closeTagName? =
      p.trace.filterMap closeTagName? := by
  rcases trace_closeTextFn p with h | ⟨t, h⟩ <;> rw [h] <;>
    simp [closeTagName?]

theorem fm_tag_flushText (p : PState) :
    (flushText p).trace.filterMap closeTagName? =
      p.trace.filterMap closeTagName? := by
  simp only [flushText]
  split
  · exact fm_tag_closeText p
  · rfl

theorem fm_ns_closeText (p : PState) :
    (closeTextFn p).trace.filterMap closeNsBinding? =
      p.trace.filterMap closeNsBinding? := by
  rcases trace_closeTextFn p with h | ⟨t, h⟩ <;> rw [h] <;>
    simp [closeNsBinding?]

theorem fm_ns_flushText (p : PState) :
    (flushText p).trace.filterMap closeNsBinding? =
      p.trace.filterMap closeNsBinding? := by
  simp only [flushText]
  split
  · exact fm_ns_closeText p
  · rfl

theorem fm_tag_foldlNs (l : List (String × String)) :
    ∀ q, ((l.foldl nsEmitClose q).trace).filterMap closeTagName? =
      q.trace.filterMap closeTagName? := by
  induction l with
  | nil => intro q; rfl
  | cons kv rest ih =>
    intro q
    rw [List.foldl_cons, ih]
    simp [nsEmitClose, emitE, fm_tag_flushText, closeTagName?]

theorem fm_ns_foldlNs (l : List (String × String)) :
    ∀ q, ((l.foldl nsEmitClose q).trace).filterMap closeNsBinding? =
      q.trace.filterMap closeNsBinding? ++ l := by
  induction l with
  | nil => intro q; simp
  | cons kv rest ih =>
    intro q
    rw [List.foldl_cons, ih]
    simp [nsEmitClose, emitE, fm_ns_flushText, closeNsBinding?]

@[simp] theorem nsEmitClose_tags (p : PState) (kv : String × String) :
    (nsEmitClose p kv).tags = p.tags := by
  simp [nsEmitClose, emitE]

theorem foldlNs_tags (l : List (String × String)) (q : PState) :
    (l.foldl nsEmitClose q).tags = q.tags :=
  foldl_inv (fun r => r.tags) nsEmitClose (by intro r kv; simp) l q

/-- The walk's repeated "Unexpected close tag" strict-fail leaves the stack,
the buffered name and the options alone. -/
theorem iterSF_tags (m : String) (k : Nat) :
    ∀ q, ((fun r => strictFailFn r m)^[k] q).tags = q.tags := by
  induction k with
  | zero => intro q; rfl
  | succ k ih =>
    intro q
    rw [Function.iterate_succ_apply, ih]
    simp

theorem iterSF_tagName (m : String) (k : Nat) :
    ∀ q, ((fun r => strictFailFn r m)^[k] q).buffer.tagName =
      q.buffer.tagName := by
  induction k with
  | zero => intro q; rfl
  | succ k ih =>
    intro q
    rw [Function.iterate_succ_apply, ih]
    simp

/-- The stack walk of `_closeTag` in closed form: it returns the index of
the topmost match (`List.findIdx?`), and the state has strict-failed
"Unexpected close tag" once for every tag walked over — every intervening
tag when there is a match, the whole stack when there is none. -/
theorem closeWalk_spec (stack : List Tag) (n : String) :
    ∀ q, closeWalk q stack n =
      ((fun r => strictFailFn r "Unexpected close tag")^[(List.findIdx? (fun t => t.name == n) stack).getD stack.length] q,
       List.findIdx? (fun t => t.name == n) stack) := by
  induction stack with
  | nil => intro q; simp [closeWalk]
  | cons t rest ih =>
    intro q
    simp only [closeWalk]
    by_cases ht : t.name = n
    · rw [if_pos ht]
      rw [List.findIdx?_cons]
      simp [ht]
    · rw [if_neg ht]
      have hcons : List.findIdx? (fun t => t.name == n) (t :: rest) =
          (List.findIdx? (fun t => t.name == n) rest).map (· + 1) := by
        rw [List.findIdx?_cons]
        simp [ht]
      rw [ih (strictFailFn q "Unexpected close tag"), hcons]
      rcases hf : List.findIdx? (fun t => t.name == n) rest with _ | j <;>
        simp [hf, Function.iterate_succ_apply]

/-- The body of one iteration of `_closeTag`'s pop loop (`while (s-- > t)`),
named for the closed-form proofs below. -/
def popStep (p : PState) (tag : Tag) (rest : List Tag) : PState :=
  let buf := { p.buffer with tagName := tag.name }
  let p := { p with tag := some tag, tags := rest, buffer := buf }
  let p := flushText p
  let p := emitE p (.closetag tag.name)
  if p.opts.xmlns then
    match tag.ns with
    | some nsi =>
      if ¬nsi.shared then nsi.own.foldl nsEmitClose p else p
    | none => p
  else p

theorem popTags_succ (p : PState) (tag : Tag) (rest : List Tag) (k : Nat)
    (hT : p.tags = tag :: rest) :
    popTags p (k + 1) = popTags (popStep p tag rest) k := by
  cases p
  simp only [] at hT
  subst hT
  rfl

theorem popStep_facts (p : PState) (tag : Tag) (rest : List Tag) :
    (popStep p tag rest).tags = rest ∧
    (popStep p tag rest).opts = p.opts ∧
    (popStep p tag rest).trace.filterMap closeTagName? =
      p.trace.filterMap closeTagName? ++ [tag.name] ∧
    (popStep p tag rest).trace.filterMap closeNsBinding? =
      p.trace.filterMap closeNsBinding? ++
        (match tag.ns with | some nsi => if p.opts.xmlns = true ∧ nsi.shared = false then nsi.own else [] | none => []) := by
  simp only [popStep]
  by_cases hx : p.opts.xmlns = true
  · rcases hns : tag.ns with _ | nsi
    · and_intros <;>
        simp [hx, hns, emitE, fm_tag_flushText, fm_ns_flushText,
          closeTagName?, closeNsBinding?]
    · by_cases hsh : nsi.shared = true
      · and_intros <;>
          simp [hx, hns, hsh, emitE, fm_tag_flushText, fm_ns_flushText,
            closeTagName?, closeNsBinding?]
      · and_intros <;>
          simp [hx, hns, hsh, emitE, fm_tag_flushText, fm_ns_flushText,
            fm_tag_foldlNs, fm_ns_foldlNs, foldlNs_tags,
            closeTagName?, closeNsBinding?]
  · rcases hns : tag.ns with _ | nsi <;>
      and_intros <;>
      simp [hx, hns, emitE, fm_tag_flushText, fm_ns_flushText,
        closeTagName?, closeNsBinding?]

/-- The pop loop of `_closeTag` in closed form, for `k` pops from a stack of
at least `k` tags: the top `k` tags leave the stack; each pop emits
`closetag` with the popped tag's name, in stack order (text is flushed first,
contributing no `closetag` or `closenamespace` payloads); and a popped tag
additionally emits `closenamespace` for each of its own bindings exactly when
namespaces are on and its map is no longer the shared parent map. -/
theorem popTags_spec (k : Nat) :
    ∀ p, k ≤ p.tags.length →
      (popTags p k).tags = p.tags.drop k ∧
      (popTags p k).opts = p.opts ∧
      (popTags p k).trace.filterMap closeTagName? =
        p.trace.filterMap closeTagName? ++ (p.tags.take k).map Tag.name ∧
      (popTags p k).trace.filterMap closeNsBinding? =
        p.trace.filterMap closeNsBinding? ++
          (p.tags.take k).flatMap (fun t => match t.ns with | some nsi => if p.opts.xmlns = true ∧ nsi.shared = false then nsi.own else [] | none => []) := by
  induction k with
  | zero =>
    intro p _
    refine ⟨rfl, rfl, ?_, ?_⟩ <;>
      rw [show popTags p 0 = p from rfl] <;> simp
  | succ k ih =>
    intro p hk
    rcases hT : p.tags with _ | ⟨tag, rest⟩
    · rw [hT] at hk
      simp at hk
    · rw [popTags_succ p tag rest k hT]
      obtain ⟨f1, f2, f3, f4⟩ := popStep_facts p tag rest
      obtain ⟨i1, i2, i3, i4⟩ := ih (popStep p tag rest)
        (by rw [f1]; rw [hT] at hk; simpa using hk)
      refine ⟨?_, ?_, ?_, ?_⟩
      · simp [i1, f1, hT]
      · simp [i2, f2]
      · simp [i3, f3, f1, hT, List.append_assoc]
      · simp only [f2] at i4
        simp [i4, f4, f1, hT, List.append_assoc]

/-- C5 (amended): `_closeTag` on a non-empty buffered name with no pending
script text.  (1) The stack walk returns the index of the topmost tag whose
stack name equals the case-normalised closing name, strict-failing
"Unexpected close tag" once per tag walked over.  (2) If no tag matches, the
parser strict-fails "Unmatched closing tag", appends `</name>` built from the
RAW buffered name — not the case-normalised name the claim states, see
`c5_counterexample` — to `textNode`, returns to `Text`, and pops nothing.
(3) On a match at depth `j`, the normalised name is stored and `j + 1` tags
are popped, the state then returning to `Text` with cleared buffers and
`closedRoot` set exactly when the stack has emptied.  (4) Each pop flushes
text, emits `closetag` with the popped tag's stack name in order, and emits
`closenamespace` for each own binding of a popped tag exactly when
namespaces are on and the tag's map is no longer the shared parent map. -/
theorem c5_close_tag (p : PState)
    (hname : p.buffer.tagName ≠ "") (hscript : p.buffer.script = "") :
    (∀ (stack : List Tag) (n : String) (q : PState),
      closeWalk q stack n =
        ((fun r => strictFailFn r "Unexpected close tag")^[(List.findIdx? (fun t => t.name == n) stack).getD stack.length] q, List.findIdx? (fun t => t.name == n) stack)) ∧
    (List.findIdx? (fun t => t.name == closeToName p) p.tags = none →
      (closeTagFn p =
        (let q := (fun r => strictFailFn r "Unexpected close tag")^[p.tags.length] p
         let q2 := strictFailFn q ("Unmatched closing tag: " ++ q.buffer.tagName)
         { q2 with buffer := { q2.buffer with textNode := q2.buffer.textNode ++ "</" ++ q2.buffer.tagName ++ ">" }, state := State.Text }) ∧
       (closeTagFn p).tags = p.tags ∧
       ((fun r => strictFailFn r "Unexpected close tag")^[p.tags.length] p).buffer.tagName = p.buffer.tagName)) ∧
    (∀ j, List.findIdx? (fun t => t.name == closeToName p) p.tags = some j →
      closeTagFn p =
        (let q := (fun r => strictFailFn r "Unexpected close tag")^[j] p
         let q1 := { q with buffer := { q.buffer with tagName := closeToName p } }
         let q2 := popTags q1 (j + 1)
         let q3 := if q2.tags = [] then { q2 with closedRoot := true } else q2
         { q3 with buffer := { q3.buffer with tagName := "", attribValue := "", attribName := "" }, attribList := [], state := State.Text })) ∧
    (∀ (k : Nat) (q : PState), k ≤ q.tags.length →
      (popTags q k).tags = q.tags.drop k ∧
      (popTags q k).trace.filterMap closeTagName? =
        q.trace.filterMap closeTagName? ++ (q.tags.take k).map Tag.name ∧
      (popTags q k).trace.filterMap closeNsBinding? =
        q.trace.filterMap closeNsBinding? ++
          (q.tags.take k).flatMap (fun t => match t.ns with | some nsi => if q.opts.xmlns = true ∧ nsi.shared = false then nsi.own else [] | none => [])) := by
  refine ⟨fun stack n q => closeWalk_spec stack n q, ?_, ?_,
    fun k q hk => ⟨(popTags_spec k q hk).1, (popTags_spec k q hk).2.2.1,
      (popTags_spec k q hk).2.2.2⟩⟩
  · intro hf
    have heq : closeTagFn p =
        (let q := (fun r => strictFailFn r "Unexpected close tag")^[p.tags.length] p
         let q2 := strictFailFn q ("Unmatched closing tag: " ++ q.buffer.tagName)
         { q2 with buffer := { q2.buffer with textNode := q2.buffer.textNode ++ "</" ++ q2.buffer.tagName ++ ">" }, state := State.Text }) := by
      simp only [closeTagFn]
      rw [if_neg hname]
      rw [if_neg (by simp [hscript])]
      rw [show closeTagScriptFlush p = p from by
        simp [closeTagScriptFlush, hscript]]
      rw [closeWalk_spec p.tags (closeToName p) p, hf]
      rfl
    refine ⟨heq, ?_, iterSF_tagName _ _ p⟩
    rw [heq]
    simp only []
    simp [iterSF_tags]
  · intro j hf
    simp only [closeTagFn]
    rw [if_neg hname]
    rw [if_neg (by simp [hscript])]
    rw [show closeTagScriptFlush p = p from by
      simp [closeTagScriptFlush, hscript]]
    rw [closeWalk_spec p.tags (closeToName p) p, hf]
    rfl

/-- C5 counterexample: in non-strict mode closing names are case-normalised
(to upper case by default) for matching, but the text stashed for an
unmatched closing tag uses the RAW buffered name: `<a></b></a>` yields the
text event `</b>`, not `</B>` as the claim's normalised-name reading
requires. -/
theorem c5_counterexample :
    Event.text "</b>" ∈
      (runAll false defaultOpts [("<a></b></a>".toList)]).trace ∧
    Event.text "</B>" ∉
      (runAll false defaultOpts [("<a></b></a>".toList)]).trace := by
  constructor <;> decide

/-- A concrete unmatched-close situation: stack `[A]`, buffered name `b`
(normalised `B`). -/
def c5Tag : Tag :=
  { name := "A", attributes := [], isSelfClosing := false, pfx := none,
    loc := none, uri := none, ns := none }

def c5P : PState :=
  { initP false defaultOpts with
    state := State.CloseTag,
    buffer := { emptyBuffer with tagName := "b" },
    tags := [c5Tag], sawRoot := true }

/-- Witness for C5 at the concrete unmatched close `</b>` over stack `[A]`. -/
theorem c5_close_tag_witness :
    (closeTagFn c5P =
      (let q := (fun r => strictFailFn r "Unexpected close tag")^[c5P.tags.length] c5P
       let q2 := strictFailFn q ("Unmatched closing tag: " ++ q.buffer.tagName)
       { q2 with buffer := { q2.buffer with textNode := q2.buffer.textNode ++ "</" ++ q2.buffer.tagName ++ ">" }, state := State.Text })) ∧
    (closeTagFn c5P).tags = c5P.tags ∧
    ((fun r => strictFailFn r "Unexpected close tag")^[c5P.tags.length] c5P).buffer.tagName = c5P.buffer.tagName :=
  (c5_close_tag c5P (by decide) (by decide)).2.1 (by decide)

end Sax
